import Mathlib

/-!
# Verification of the radix-event-stream dispatch-and-retry engine

Shallow embedding of `src/processor.rs` (`TransactionStreamProcessor`,
`DefaultTransactionHandler`, `EventProcessor`) together with the parts of the
repository it depends on (`models.rs`, `event_handler.rs`, `error.rs`,
`logger.rs`), which are not present under `src/` and are therefore modelled
from the specification where noted.

Conventions of the embedding:
* Rust mutable state is passed and returned explicitly.
* The `tokio` suspension points (`sleep`) and every `Logger` notification are
  recorded in an explicit trace (`TraceEntry`); handler invocations are also
  recorded as trace markers so that dispatch order is observable.
* The unbounded `while` retry loops of the source are given an explicit fuel
  argument; a `none` result means the loop was still retrying when the fuel
  ran out (the source loops forever in that situation).
* Handlers are stored in the registry as numeric identifiers; a separate
  environment maps an identifier to its behaviour.  This mirrors the boxed
  trait objects of the source while keeping the embedding well-founded.
-/

namespace RadixEventStream

/-- `models.rs::EventEmitter` (shape taken from the `From` conversion in
`src/sources/gateway.rs`, lines 30–54, and spec §3). -/
inductive EventEmitter : Type where
  | Method (entity_address : String)
  | Function (package_address : String) (blueprint_name : String)
deriving DecidableEq, Repr

/-- Modelled from the spec: `EventEmitter::address` from the missing
`models.rs`.  Every dispatch lookup site in `src/processor.rs` calls
`event.emitter.address()` to obtain the string half of the registry key;
per spec §3 both variants are normalized to a canonical string key
(the entity address of a `Method` emitter, the package address of a
`Function` emitter). -/
def EventEmitter.address : EventEmitter → String
  | .Method entity_address => entity_address
  | .Function package_address _ => package_address

/-- `models.rs::Event` (shape from `gateway.rs` and spec §3); the payload is
an opaque byte sequence that the engine never inspects. -/
structure Event : Type where
  name : String
  emitter : EventEmitter
  binary_sbor_data : List Nat
deriving DecidableEq, Repr

/-- `models.rs::Transaction` (shape from `gateway.rs` and spec §3). -/
structure Transaction : Type where
  intent_hash : String
  state_version : Nat
  confirmed_at : Option Nat
  events : List Event
deriving DecidableEq, Repr

/-- `error.rs::EventHandlerError`.  Modelled from the spec (§7): retryable
versus unrecoverable, each wrapping an application-level cause. -/
inductive EventHandlerError : Type where
  | EventRetryError (cause : String)
  | UnrecoverableError (cause : String)
deriving DecidableEq, Repr

/-- `error.rs::TransactionHandlerError`.  Modelled from the spec (§7): the
same two-level taxonomy mirrored at transaction granularity. -/
inductive TransactionHandlerError : Type where
  | TransactionRetryError (cause : String)
  | UnrecoverableError (cause : String)
deriving DecidableEq, Repr

/-- `error.rs::TransactionStreamProcessorError`.  Modelled from the spec
(§7): `run()` surfaces only the unrecoverable cause. -/
inductive TransactionStreamProcessorError : Type where
  | UnrecoverableError (cause : String)
deriving DecidableEq, Repr

/-- Modelled from the spec (§7): the `From<EventHandlerError>` conversion in
the missing `error.rs`, used by the `?` operator in
`DefaultTransactionHandler::handle`; the taxonomy is mirrored level-wise. -/
def eventToTransactionError : EventHandlerError → TransactionHandlerError
  | .EventRetryError cause => .TransactionRetryError cause
  | .UnrecoverableError cause => .UnrecoverableError cause

/-- Handler identifiers: the registry stores boxed trait objects in the
source; the embedding stores an index into a handler environment. -/
abbrev HandlerId := Nat

/-- Modelled from the spec (§4.1): `event_handler.rs::HandlerRegistry`, a
lookup from the `(emitter address, event name)` key to one handler; it is
not under `src/`.  Registration prepends, lookup takes the first match, so
re-registration under a key replaces the previous entry (last-write-wins,
spec §3). -/
structure HandlerRegistry : Type where
  handlers : List ((String × String) × HandlerId)
deriving DecidableEq, Repr

/-- First-match association lookup used by the registry. -/
def lookupKey : List ((String × String) × HandlerId) → String × String → Option HandlerId
  | [], _ => none
  | (k, hid) :: rest, key => if k = key then some hid else lookupKey rest key

/-- `HandlerRegistry::get_handler` (spec §4.1): `none` iff no entry under the
key. -/
def HandlerRegistry.get_handler (r : HandlerRegistry) (address name : String) :
    Option HandlerId :=
  lookupKey r.handlers (address, name)

/-- `HandlerRegistry::handler_exists` (spec §4.1): pure lookup, true iff an
entry is present under the key. -/
def HandlerRegistry.handler_exists (r : HandlerRegistry) (address name : String) :
    Bool :=
  (r.get_handler address name).isSome

/-- `HandlerRegistry::add_handler` (spec §4.1 `register`): inserts or
replaces the entry for the key. -/
def HandlerRegistry.add_handler (r : HandlerRegistry) (address name : String)
    (hid : HandlerId) : HandlerRegistry :=
  ⟨((address, name), hid) :: r.handlers⟩

/-- One entry of the observable trace: `Logger` notifications (spec §6),
`tokio::time::sleep` suspensions, and handler-invocation markers.
Transactions are identified by their `intent_hash`, events by their position
in the transaction's event list. -/
inductive TraceEntry : Type where
  | receiveTransaction (txn : String) (dispatchable is_retry : Bool)
  | finishTransaction (txn : String) (handled : Bool)
  | transactionRetryError (txn cause : String) (delay : Nat)
  | receiveEvent (txn : String) (idx : Nat) (dispatchable is_retry : Bool)
  | finishEvent (txn : String) (idx : Nat) (handled : Bool)
  | eventRetryError (txn : String) (idx : Nat) (cause : String) (delay : Nat)
  | unrecoverableError (cause : String)
  | sleep (ms : Nat)
  | invokeTransactionHandler (txn : String)
  | invokeEventHandler (hid : HandlerId) (idx : Nat)
deriving DecidableEq, Repr

/-- Whether a trace entry is a `Logger` notification (as opposed to a sleep
or an invocation marker). -/
def TraceEntry.isObserverCall : TraceEntry → Bool
  | .receiveTransaction _ _ _ => true
  | .finishTransaction _ _ => true
  | .transactionRetryError _ _ _ => true
  | .receiveEvent _ _ _ _ => true
  | .finishEvent _ _ _ => true
  | .eventRetryError _ _ _ _ => true
  | .unrecoverableError _ => true
  | _ => false

/-- Outcome of one event-handler invocation (`EventHandler::handle`): the
`Result`, together with the values the handler may have mutated through the
`EventHandlerContext` (the `STATE`, the registry, the transaction context). -/
structure EventHandlerOutcome (S T : Type) : Type where
  result : Except EventHandlerError Unit
  state : S
  registry : HandlerRegistry
  tctx : T

/-- Behaviour of one event handler: a function of everything reachable from
`EventHandlerContext` plus the payload (which is a field of the event). -/
abbrev EventHandlerFn (S T : Type) :=
  S → Transaction → Event → HandlerRegistry → T → EventHandlerOutcome S T

/-- Environment mapping each stored handler identifier to its behaviour. -/
abbrev EventHandlerEnv (S T : Type) := HandlerId → EventHandlerFn S T

/-- Result of the per-event retry loop / of `process_events`: `result = none`
means the fuel ran out while the loop was still retrying. -/
structure ProcessEventsOut (S T : Type) : Type where
  result : Option (Except EventHandlerError Unit)
  state : S
  registry : HandlerRegistry
  tctx : T
  trace : List TraceEntry

/-- The inner `while let Err(err) = event_handler.handle(..)` loop of
`EventProcessor::process_events` (`src/processor.rs` lines 355–401), for one
event whose handler has already been resolved to `hid`: invoke the resolved
handler; on `EventRetryError` notify the observer with the cause and the
configured delay, sleep for the delay, notify the observer with
`is_retry = true`, and invoke the same resolved handler again; on any other
error return it; on success exit the loop. -/
def event_retry_loop {S T : Type} (env : EventHandlerEnv S T) (logger : Bool)
    (d : Nat) (t : Transaction) (e : Event) (idx : Nat) (hid : HandlerId) :
    Nat → S → HandlerRegistry → T → ProcessEventsOut S T
  | 0, st, reg, tctx => ⟨none, st, reg, tctx, []⟩
  | fuel + 1, st, reg, tctx =>
    let o := env hid st t e reg tctx
    match o.result with
    | .ok () =>
        ⟨some (.ok ()), o.state, o.registry, o.tctx,
          [.invokeEventHandler hid idx]⟩
    | .error (.EventRetryError cause) =>
        let r := event_retry_loop env logger d t e idx hid fuel
          o.state o.registry o.tctx
        ⟨r.result, r.state, r.registry, r.tctx,
          .invokeEventHandler hid idx ::
            ((if logger then [.eventRetryError t.intent_hash idx cause d] else [])
              ++ [.sleep d]
              ++ (if logger then [.receiveEvent t.intent_hash idx true true] else [])
              ++ r.trace)⟩
    | .error (.UnrecoverableError cause) =>
        ⟨some (.error (.UnrecoverableError cause)), o.state, o.registry, o.tctx,
          [.invokeEventHandler hid idx]⟩

/-- The `for event in self.transaction.events.iter()` loop of
`EventProcessor::process_events` (`src/processor.rs` lines 328–409), carrying
the position `idx` of the current event: skip events with no registered
handler (no observer call at all), otherwise notify the observer
(`dispatchable = true`, `is_retry = false`), resolve the handler once
(`get_handler(..).unwrap()`), run the retry loop, and on success notify
`finish_event` and continue with the next event; any escaping error aborts
the remaining events. -/
def process_events_go {S T : Type} (env : EventHandlerEnv S T) (logger : Bool)
    (d : Nat) (evFuel : Nat) (t : Transaction) :
    List Event → Nat → S → HandlerRegistry → T → ProcessEventsOut S T
  | [], _, st, reg, tctx => ⟨some (.ok ()), st, reg, tctx, []⟩
  | e :: rest, idx, st, reg, tctx =>
    if hx : reg.handler_exists e.emitter.address e.name then
      let hid := (reg.get_handler e.emitter.address e.name).get hx
      let head :=
        if logger then [TraceEntry.receiveEvent t.intent_hash idx true false] else []
      let o := event_retry_loop env logger d t e idx hid evFuel st reg tctx
      match o.result with
      | some (.ok ()) =>
          let fin :=
            if logger then [TraceEntry.finishEvent t.intent_hash idx true] else []
          let r := process_events_go env logger d evFuel t rest (idx + 1)
            o.state o.registry o.tctx
          ⟨r.result, r.state, r.registry, r.tctx, head ++ o.trace ++ fin ++ r.trace⟩
      | some (.error err) =>
          ⟨some (.error err), o.state, o.registry, o.tctx, head ++ o.trace⟩
      | none => ⟨none, o.state, o.registry, o.tctx, head ++ o.trace⟩
    else
      process_events_go env logger d evFuel t rest (idx + 1) st reg tctx

/-- `EventProcessor::process_events` (`src/processor.rs` lines 322–411). -/
def process_events {S T : Type} (env : EventHandlerEnv S T) (logger : Bool)
    (d : Nat) (evFuel : Nat) (t : Transaction) (st : S) (reg : HandlerRegistry)
    (tctx : T) : ProcessEventsOut S T :=
  process_events_go env logger d evFuel t t.events 0 st reg tctx

/-- Outcome of one `TransactionHandler::handle` invocation: the `Result`
together with the values the handler may have mutated through
`TransactionHandlerContext`.  `result = none` means the handler's internal
use of `process_events` ran out of fuel while retrying. -/
structure TransactionHandlerOut (S : Type) : Type where
  result : Option (Except TransactionHandlerError Unit)
  state : S
  registry : HandlerRegistry
  trace : List TraceEntry

/-- Behaviour of a transaction handler: a function of the event-loop fuel,
the logger presence, the configured event retry delay (all reachable through
the `EventProcessor` handed to it in `TransactionHandlerContext`), the
mutable `STATE`, the transaction, and the registry. -/
abbrev TransactionHandlerFn (S : Type) :=
  Nat → Bool → Nat → S → Transaction → HandlerRegistry → TransactionHandlerOut S

/-- `DefaultTransactionHandler::handle` (`src/processor.rs` lines 287–307):
forwards to `EventProcessor::process_events` with a unit transaction
context, converting any escaping `EventHandlerError` through the mirrored
`From` conversion (the `?` operator). -/
def default_transaction_handler {S : Type} (env : EventHandlerEnv S Unit) :
    TransactionHandlerFn S :=
  fun evFuel logger d st t reg =>
    let o := process_events env logger d evFuel t st reg ()
    ⟨o.result.map (Except.mapError eventToTransactionError), o.state, o.registry,
      o.trace⟩

/-- Result of `TransactionStreamProcessor::process_transaction`:
`some (Except.ok true)` for processed, `some (Except.ok false)` for skipped,
`some (Except.error _)` for an unrecoverable failure; `none` when the fuel
ran out while a retry loop was still running. -/
structure ProcessTransactionOut (S : Type) : Type where
  result : Option (Except TransactionStreamProcessorError Bool)
  state : S
  registry : HandlerRegistry
  trace : List TraceEntry

/-- The `while let Err(err) = self.transaction_handler.handle(..)` loop of
`TransactionStreamProcessor::process_transaction` (`src/processor.rs` lines
187–239): invoke the transaction handler; on `TransactionRetryError` notify
the observer with the cause and the configured transaction retry delay,
sleep for the delay, notify the observer with `is_retry = true`, and invoke
the handler again from the top; on `UnrecoverableError` notify the observer
and return the error; on success exit with `Ok(true)`. -/
def tx_retry_loop {S : Type} (h : TransactionHandlerFn S) (evFuel : Nat)
    (logger : Bool) (txD evD : Nat) (t : Transaction) :
    Nat → S → HandlerRegistry → ProcessTransactionOut S
  | 0, st, reg => ⟨none, st, reg, []⟩
  | txFuel + 1, st, reg =>
    let o := h evFuel logger evD st t reg
    let invTrace := TraceEntry.invokeTransactionHandler t.intent_hash :: o.trace
    match o.result with
    | none => ⟨none, o.state, o.registry, invTrace⟩
    | some (.ok ()) => ⟨some (.ok true), o.state, o.registry, invTrace⟩
    | some (.error (.TransactionRetryError cause)) =>
        let mid :=
          (if logger then [TraceEntry.transactionRetryError t.intent_hash cause txD]
            else [])
          ++ [TraceEntry.sleep txD]
          ++ (if logger then [TraceEntry.receiveTransaction t.intent_hash true true]
            else [])
        let r := tx_retry_loop h evFuel logger txD evD t txFuel o.state o.registry
        ⟨r.result, r.state, r.registry, invTrace ++ mid ++ r.trace⟩
    | some (.error (.UnrecoverableError cause)) =>
        ⟨some (.error (.UnrecoverableError cause)), o.state, o.registry,
          invTrace ++ (if logger then [TraceEntry.unrecoverableError cause] else [])⟩

/-- The dispatchability check at the top of `process_transaction`
(`src/processor.rs` lines 168–171): true iff some event of the transaction
has a handler registered under its `(emitter address, event name)` key. -/
def txDispatchable (reg : HandlerRegistry) (t : Transaction) : Bool :=
  t.events.any fun event => reg.handler_exists event.emitter.address event.name

/-- `TransactionStreamProcessor::process_transaction` (`src/processor.rs`
lines 162–242): compute dispatchability, notify the observer, return
`Ok(false)` immediately when no handler matches, otherwise run the
transaction retry loop. -/
def process_transaction {S : Type} (h : TransactionHandlerFn S)
    (txFuel evFuel : Nat) (logger : Bool) (txD evD : Nat) (t : Transaction)
    (st : S) (reg : HandlerRegistry) : ProcessTransactionOut S :=
  let he := txDispatchable reg t
  let head := if logger then [TraceEntry.receiveTransaction t.intent_hash he false] else []
  if he then
    let o := tx_retry_loop h evFuel logger txD evD t txFuel st reg
    ⟨o.result, o.state, o.registry, head ++ o.trace⟩
  else
    ⟨some (.ok false), st, reg, head⟩

/-- Result of `TransactionStreamProcessor::run`: besides the returned
`Result`, records whether the periodic-reporting background task is still
running when `run` returns (`periodicTaskActive`).  The task is spawned iff
a logger is configured, and `JoinHandle::abort` clears the flag. -/
structure RunOut (S : Type) : Type where
  result : Option (Except TransactionStreamProcessorError Unit)
  state : S
  registry : HandlerRegistry
  periodicTaskActive : Bool
  trace : List TraceEntry

/-- The `while let Some(transaction) = receiver.recv().await` loop of
`TransactionStreamProcessor::run` (`src/processor.rs` lines 266–283): the
channel is modelled by the FIFO list of transactions it will yield before
its send side closes.  Each transaction is processed; on success the
observer is notified with `finish_transaction` and the loop continues; the
`?` on `process_transaction` returns the error without reaching the
`handle.abort()` that follows the loop, so only the clean exit clears
`periodicTaskActive`. -/
def run_go {S : Type} (h : TransactionHandlerFn S) (txFuel evFuel : Nat)
    (logger : Bool) (txD evD : Nat) :
    List Transaction → S → HandlerRegistry → RunOut S
  | [], st, reg => ⟨some (.ok ()), st, reg, false, []⟩
  | t :: rest, st, reg =>
    let o := process_transaction h txFuel evFuel logger txD evD t st reg
    match o.result with
    | none => ⟨none, o.state, o.registry, logger, o.trace⟩
    | some (.error e) => ⟨some (.error e), o.state, o.registry, logger, o.trace⟩
    | some (.ok handled) =>
        let fin := if logger then [TraceEntry.finishTransaction t.intent_hash handled] else []
        let r := run_go h txFuel evFuel logger txD evD rest o.state o.registry
        ⟨r.result, r.state, r.registry, r.periodicTaskActive, o.trace ++ fin ++ r.trace⟩

/-- `TransactionStreamProcessor::run` (`src/processor.rs` lines 245–284):
start the stream (a failure there is fatal before the periodic task is
spawned), spawn the periodic-reporting task iff a logger is configured,
process transactions until the channel closes, then abort the periodic
task and return `Ok(())`. -/
def run {S : Type} (h : TransactionHandlerFn S) (txFuel evFuel : Nat)
    (logger : Bool) (txD evD : Nat)
    (streamStart : Except String (List Transaction)) (st : S)
    (reg : HandlerRegistry) : RunOut S :=
  match streamStart with
  | .error cause =>
      ⟨some (.error (.UnrecoverableError cause)), st, reg, false, []⟩
  | .ok txs => run_go h txFuel evFuel logger txD evD txs st reg

/-- The canonical dispatch key derived from an event (spec §3): the
normalized emitter address paired with the event name. -/
def dispatchKey (e : Event) : String × String := (e.emitter.address, e.name)

/-- `radix_client::gateway::models::EntityReference` (shape from
`src/sources/gateway.rs`). -/
structure EntityReference : Type where
  entity_address : String
deriving DecidableEq, Repr

/-- `radix_client::gateway::models::EventEmitterIdentifier` (shape from
`src/sources/gateway.rs` lines 30–45). -/
inductive EventEmitterIdentifier : Type where
  | Method (entity : EntityReference)
  | Function (package_address : String) (blueprint_name : String)
deriving DecidableEq, Repr

/-- The emitter part of `From<radix_client::gateway::models::Event> for
Event` (`src/sources/gateway.rs` lines 30–45): the conversion keeps the
variant, copying the entity address of a `Method` and the package address
and blueprint name of a `Function`.  (The payload conversion
`programmatic_json_to_bytes` is out of scope per spec §1.) -/
def emitterFromGateway : EventEmitterIdentifier → EventEmitter
  | .Method entity => .Method entity.entity_address
  | .Function package_address blueprint_name =>
      .Function package_address blueprint_name

/-- Discriminator for the engine-side emitter variants. -/
def EventEmitter.isMethod : EventEmitter → Bool
  | .Method _ => true
  | .Function _ _ => false

/-- Discriminator for the gateway-side emitter variants. -/
def EventEmitterIdentifier.isMethod : EventEmitterIdentifier → Bool
  | .Method _ => true
  | .Function _ _ => false

/-- Modelled from the spec (§4.1 and §9): the typed view of the missing
`event_handler.rs` registry.  Handlers of heterogeneous concrete type are
stored behind one structure together with a runtime type tag for their
`(STATE, TRANSACTION_CONTEXT)` instantiation; `handler_exists` ignores the
tag, while `get_handler` performs the checked type recovery and fails fast
(`typeMismatchPanic`) on a tag mismatch instead of silently returning
`absent`. -/
structure TypedHandlerRegistry : Type where
  handlers : List ((String × String) × (Nat × Nat × HandlerId))
deriving DecidableEq, Repr

/-- Resolution outcome of the typed `get_handler`. -/
inductive HandlerResolution : Type where
  | absent
  | typeMismatchPanic
  | resolved (hid : HandlerId)
deriving DecidableEq, Repr

/-- First-match association lookup used by the typed registry. -/
def lookupTypedKey :
    List ((String × String) × (Nat × Nat × HandlerId)) → String × String →
      Option (Nat × Nat × HandlerId)
  | [], _ => none
  | (k, v) :: rest, key => if k = key then some v else lookupTypedKey rest key

/-- Typed `handler_exists` (spec §4.1): presence of an entry under the key,
regardless of its type tag. -/
def TypedHandlerRegistry.handler_exists (r : TypedHandlerRegistry)
    (address name : String) : Bool :=
  (lookupTypedKey r.handlers (address, name)).isSome

/-- Typed `get_handler` (spec §4.1): `absent` when no entry exists,
`typeMismatchPanic` when the stored tag differs from the caller's
instantiation (fail-fast), and the handler otherwise. -/
def TypedHandlerRegistry.get_handler (r : TypedHandlerRegistry)
    (stateTag ctxTag : Nat) (address name : String) : HandlerResolution :=
  match lookupTypedKey r.handlers (address, name) with
  | none => .absent
  | some (s, c, hid) =>
      if s = stateTag ∧ c = ctxTag then .resolved hid else .typeMismatchPanic

/-! ### Trace projections and iteration helpers used by the statements -/

/-- Number of transaction-handler invocations recorded in a trace. -/
def countTransactionInvocations (tr : List TraceEntry) : Nat :=
  tr.countP fun x => match x with
    | .invokeTransactionHandler _ => true
    | _ => false

/-- The event-handler invocations of a trace, in order, as
`(handler identifier, event position)` pairs. -/
def invocationMarkers (tr : List TraceEntry) : List (HandlerId × Nat) :=
  tr.filterMap fun x => match x with
    | .invokeEventHandler hid idx => some (hid, idx)
    | _ => none

/-- The event positions of the event-handler invocations of a trace, in
order. -/
def invocationPositions (tr : List TraceEntry) : List Nat :=
  (invocationMarkers tr).map Prod.snd

/-- Number of `sleep` suspensions recorded in a trace. -/
def countSleeps (tr : List TraceEntry) : Nat :=
  tr.countP fun x => match x with
    | .sleep _ => true
    | _ => false

/-- The non-observer part of a trace: sleeps and invocation markers. -/
def nonObserverTrace (tr : List TraceEntry) : List TraceEntry :=
  tr.filter fun x => !x.isObserverCall

/-- Concatenation of contiguous blocks: each pair `(i, k)` contributes `k`
copies of `i`. -/
def blockJoin (ps : List (Nat × Nat)) : List Nat :=
  (ps.map fun p => List.replicate p.2 p.1).flatten

/-- The mutation one invocation of event handler `hid` applies to the
`(STATE, registry, transaction context)` triple. -/
def evStep {S T : Type} (env : EventHandlerEnv S T) (hid : HandlerId)
    (t : Transaction) (e : Event) (s : S × HandlerRegistry × T) :
    S × HandlerRegistry × T :=
  let o := env hid s.1 t e s.2.1 s.2.2
  (o.state, o.registry, o.tctx)

/-- The `(STATE, registry, transaction context)` triple seen by the `k`-th
invocation of event handler `hid` in its retry loop (`k = 0` is the first
invocation). -/
def evIterate {S T : Type} (env : EventHandlerEnv S T) (hid : HandlerId)
    (t : Transaction) (e : Event) : Nat → S × HandlerRegistry × T → S × HandlerRegistry × T
  | 0, s => s
  | k + 1, s => evIterate env hid t e k (evStep env hid t e s)

/-- The `Result` returned by the `k`-th invocation of event handler `hid` in
its retry loop, starting from the triple `s`. -/
def evResultAt {S T : Type} (env : EventHandlerEnv S T) (hid : HandlerId)
    (t : Transaction) (e : Event) (k : Nat) (s : S × HandlerRegistry × T) :
    Except EventHandlerError Unit :=
  let s' := evIterate env hid t e k s
  (env hid s'.1 t e s'.2.1 s'.2.2).result

/-- The mutation one invocation of the transaction handler applies to the
`(STATE, registry)` pair. -/
def txStep {S : Type} (h : TransactionHandlerFn S) (evFuel : Nat) (logger : Bool)
    (evD : Nat) (t : Transaction) (s : S × HandlerRegistry) : S × HandlerRegistry :=
  let o := h evFuel logger evD s.1 t s.2
  (o.state, o.registry)

/-- The `(STATE, registry)` pair seen by the `k`-th invocation of the
transaction handler in its retry loop (`k = 0` is the first invocation). -/
def txIterate {S : Type} (h : TransactionHandlerFn S) (evFuel : Nat)
    (logger : Bool) (evD : Nat) (t : Transaction) :
    Nat → S × HandlerRegistry → S × HandlerRegistry
  | 0, s => s
  | k + 1, s => txIterate h evFuel logger evD t k (txStep h evFuel logger evD t s)

/-- The `Result` returned by the `k`-th invocation of the transaction
handler in its retry loop, starting from the pair `s`. -/
def txResultAt {S : Type} (h : TransactionHandlerFn S) (evFuel : Nat)
    (logger : Bool) (evD : Nat) (t : Transaction) (k : Nat)
    (s : S × HandlerRegistry) : Option (Except TransactionHandlerError Unit) :=
  let s' := txIterate h evFuel logger evD t k s
  (h evFuel logger evD s'.1 t s'.2).result

/-- The trace emitted by the `k`-th invocation of the transaction handler in
its retry loop, starting from the pair `s`. -/
def txTraceAt {S : Type} (h : TransactionHandlerFn S) (evFuel : Nat)
    (logger : Bool) (evD : Nat) (t : Transaction) (k : Nat)
    (s : S × HandlerRegistry) : List TraceEntry :=
  let s' := txIterate h evFuel logger evD t k s
  (h evFuel logger evD s'.1 t s'.2).trace

/-! ### Concrete material for the witnesses and counterexamples -/

/-- Concrete handler environment: handler 0 succeeds immediately, handler 1
succeeds after two retryable failures (the `Nat` state counts its attempts),
handler 2 always fails unrecoverably, every other handler always requests a
retry. -/
def sampleEnv : EventHandlerEnv Nat Unit := fun hid st _ _ reg tctx =>
  match hid with
  | 0 => ⟨.ok (), st + 1, reg, tctx⟩
  | 1 =>
      if st < 2 then ⟨.error (.EventRetryError "transient"), st + 1, reg, tctx⟩
      else ⟨.ok (), st, reg, tctx⟩
  | 2 => ⟨.error (.UnrecoverableError "boom"), st, reg, tctx⟩
  | _ => ⟨.error (.EventRetryError "transient"), st + 1, reg, tctx⟩

/-- Concrete event handled by the retry-twice-then-succeed handler 1. -/
def sampleEventA : Event := ⟨"ev", .Method "addr", [1, 2]⟩

/-- Concrete event handled by the always-unrecoverable handler 2. -/
def sampleEventB : Event := ⟨"boom_ev", .Method "baddr", []⟩

/-- A transaction with zero events. -/
def emptyTx : Transaction := ⟨"tx0", 1, none, []⟩

/-- A transaction whose single event retries twice and then succeeds under
`sampleRegA`. -/
def sampleTxA : Transaction := ⟨"tx1", 1, none, [sampleEventA]⟩

/-- A transaction whose single event fails unrecoverably under
`sampleRegB`. -/
def sampleTxB : Transaction := ⟨"tx2", 2, none, [sampleEventB]⟩

/-- Registry dispatching `sampleEventA` to handler 1. -/
def sampleRegA : HandlerRegistry :=
  (HandlerRegistry.mk []).add_handler "addr" "ev" 1

/-- Registry dispatching `sampleEventB` to handler 2. -/
def sampleRegB : HandlerRegistry :=
  (HandlerRegistry.mk []).add_handler "baddr" "boom_ev" 2

/-- A transaction handler that always succeeds without touching anything. -/
def sampleTxHandlerOk : TransactionHandlerFn Nat :=
  fun _ _ _ st _ reg => ⟨some (.ok ()), st, reg, []⟩

/-- A transaction handler that always requests a retry, counting its
attempts in the `Nat` state. -/
def sampleTxHandlerRetry : TransactionHandlerFn Nat :=
  fun _ _ _ st _ reg => ⟨some (.error (.TransactionRetryError "again")), st + 1, reg, []⟩

/-! ## Helper lemmas -/

/-- An error escaping the per-event retry loop is never a retry error:
`EventRetryError` is always recovered inside the loop. -/
theorem event_retry_loop_error_unrecoverable {S T : Type}
    (env : EventHandlerEnv S T) (logger : Bool) (d : Nat) (t : Transaction)
    (e : Event) (idx : Nat) (hid : HandlerId) :
    ∀ (fuel : Nat) (st : S) (reg : HandlerRegistry) (tctx : T)
      (err : EventHandlerError),
      (event_retry_loop env logger d t e idx hid fuel st reg tctx).result =
        some (.error err) →
      ∃ cause, err = .UnrecoverableError cause := by
  intro fuel
  induction fuel with
  | zero => intro st reg tctx err h; simp [event_retry_loop] at h
  | succ n ih =>
    intro st reg tctx err h
    simp only [event_retry_loop] at h
    split at h
    · simp at h
    · exact ih _ _ _ _ h
    · rename_i cause heq
      simp only [Option.some.injEq, Except.error.injEq] at h
      exact ⟨cause, h.symm⟩

/-- Unfolding of `process_events_go` at an event whose handler exists. -/
theorem process_events_go_cons_pos {S T : Type} (env : EventHandlerEnv S T)
    (logger : Bool) (d evFuel : Nat) (t : Transaction) (e : Event)
    (rest : List Event) (idx : Nat) (st : S) (reg : HandlerRegistry) (tctx : T)
    (hx : reg.handler_exists e.emitter.address e.name = true) :
    process_events_go env logger d evFuel t (e :: rest) idx st reg tctx =
      (let hid := (reg.get_handler e.emitter.address e.name).get hx
       let head := if logger then [TraceEntry.receiveEvent t.intent_hash idx true false] else []
       let o := event_retry_loop env logger d t e idx hid evFuel st reg tctx
       match o.result with
       | some (.ok ()) =>
           let fin := if logger then [TraceEntry.finishEvent t.intent_hash idx true] else []
           let r := process_events_go env logger d evFuel t rest (idx + 1) o.state o.registry o.tctx
           ⟨r.result, r.state, r.registry, r.tctx, head ++ o.trace ++ fin ++ r.trace⟩
       | some (.error err) => ⟨some (.error err), o.state, o.registry, o.tctx, head ++ o.trace⟩
       | none => ⟨none, o.state, o.registry, o.tctx, head ++ o.trace⟩) := by
  simp only [process_events_go]
  rw [dif_pos hx]

/-- Unfolding of `process_events_go` at an event whose handler is absent:
the event is skipped with no effect and no trace. -/
theorem process_events_go_cons_neg {S T : Type} (env : EventHandlerEnv S T)
    (logger : Bool) (d evFuel : Nat) (t : Transaction) (e : Event)
    (rest : List Event) (idx : Nat) (st : S) (reg : HandlerRegistry) (tctx : T)
    (hx : reg.handler_exists e.emitter.address e.name = false) :
    process_events_go env logger d evFuel t (e :: rest) idx st reg tctx =
      process_events_go env logger d evFuel t rest (idx + 1) st reg tctx := by
  simp [process_events_go, hx]

/-- The trace of a positive-fuel transaction retry loop starts with the
invocation of the transaction handler. -/
theorem tx_retry_loop_trace_head {S : Type} (h : TransactionHandlerFn S)
    (evFuel : Nat) (logger : Bool) (txD evD : Nat) (t : Transaction) (n : Nat)
    (st : S) (reg : HandlerRegistry) :
    ∃ tail, (tx_retry_loop h evFuel logger txD evD t (n + 1) st reg).trace =
      TraceEntry.invokeTransactionHandler t.intent_hash :: tail := by
  simp only [tx_retry_loop]
  cases (h evFuel logger evD st t reg).result with
  | none => exact ⟨_, rfl⟩
  | some r =>
    cases r with
    | ok u => cases u; exact ⟨_, rfl⟩
    | error err =>
      cases err with
      | TransactionRetryError c => exact ⟨_, rfl⟩
      | UnrecoverableError c => exact ⟨_, rfl⟩

/-- Transaction-invocation counting distributes over concatenation. -/
theorem countTransactionInvocations_append (a b : List TraceEntry) :
    countTransactionInvocations (a ++ b) =
      countTransactionInvocations a + countTransactionInvocations b :=
  List.countP_append _ _ _

/-- A transaction-handler invocation marker adds one to the count. -/
theorem countTransactionInvocations_cons_invoke (s : String) (l : List TraceEntry) :
    countTransactionInvocations (TraceEntry.invokeTransactionHandler s :: l) =
      countTransactionInvocations l + 1 := by
  simp [countTransactionInvocations]

/-- The engine-side notifications between two transaction-handler attempts
contain no invocation marker. -/
theorem countTransactionInvocations_mid (logger : Bool) (txn c : String)
    (txD : Nat) :
    countTransactionInvocations
      ((if logger then [TraceEntry.transactionRetryError txn c txD] else []) ++
        [TraceEntry.sleep txD] ++
        (if logger then [TraceEntry.receiveTransaction txn true true] else [])) = 0 := by
  cases logger <;> rfl

/-- Invocation positions distribute over concatenation. -/
theorem invocationPositions_append (a b : List TraceEntry) :
    invocationPositions (a ++ b) =
      invocationPositions a ++ invocationPositions b := by
  simp [invocationPositions, invocationMarkers, List.filterMap_append]

/-- An event-handler invocation marker contributes its position. -/
theorem invocationPositions_cons_invoke (hid idx : Nat) (l : List TraceEntry) :
    invocationPositions (TraceEntry.invokeEventHandler hid idx :: l) =
      idx :: invocationPositions l := by
  simp [invocationPositions, invocationMarkers]

/-- The optional retry-error notification contributes no position. -/
theorem invocationPositions_retry_note (logger : Bool) (txn : String)
    (idx : Nat) (c : String) (d : Nat) :
    invocationPositions
      (if logger then [TraceEntry.eventRetryError txn idx c d] else []) = [] := by
  cases logger <;> rfl

/-- A sleep contributes no position. -/
theorem invocationPositions_sleep (d : Nat) :
    invocationPositions [TraceEntry.sleep d] = [] := rfl

/-- The optional retry receive-event notification contributes no position. -/
theorem invocationPositions_receive_note (logger : Bool) (txn : String)
    (idx : Nat) (b1 b2 : Bool) :
    invocationPositions
      (if logger then [TraceEntry.receiveEvent txn idx b1 b2] else []) = [] := by
  cases logger <;> rfl

/-- The optional finish-event notification contributes no position. -/
theorem invocationPositions_finish_note (logger : Bool) (txn : String)
    (idx : Nat) (b : Bool) :
    invocationPositions
      (if logger then [TraceEntry.finishEvent txn idx b] else []) = [] := by
  cases logger <;> rfl

/-- Every invocation of one event's retry loop is at that event's position:
the positions of the loop trace form a constant block. -/
theorem event_retry_loop_positions {S T : Type} (env : EventHandlerEnv S T)
    (logger : Bool) (d : Nat) (t : Transaction) (e : Event) (idx : Nat)
    (hid : HandlerId) :
    ∀ (fuel : Nat) (st : S) (reg : HandlerRegistry) (tctx : T),
      ∃ m, invocationPositions
          (event_retry_loop env logger d t e idx hid fuel st reg tctx).trace =
        List.replicate m idx := by
  intro fuel
  induction fuel with
  | zero => intro st reg tctx; exact ⟨0, rfl⟩
  | succ n ih =>
    intro st reg tctx
    simp only [event_retry_loop]
    cases hres : (env hid st t e reg tctx).result with
    | ok u => cases u; exact ⟨1, rfl⟩
    | error err =>
      cases err with
      | UnrecoverableError c => exact ⟨1, rfl⟩
      | EventRetryError c =>
        obtain ⟨m, hm⟩ := ih (env hid st t e reg tctx).state
          (env hid st t e reg tctx).registry (env hid st t e reg tctx).tctx
        refine ⟨m + 1, ?_⟩
        show invocationPositions
          (TraceEntry.invokeEventHandler hid idx ::
            ((if logger then [TraceEntry.eventRetryError t.intent_hash idx c d] else []) ++
              [TraceEntry.sleep d] ++
              (if logger then [TraceEntry.receiveEvent t.intent_hash idx true true] else []) ++
              (event_retry_loop env logger d t e idx hid n
                (env hid st t e reg tctx).state (env hid st t e reg tctx).registry
                (env hid st t e reg tctx).tctx).trace)) = List.replicate (m + 1) idx
        rw [invocationPositions_cons_invoke, invocationPositions_append,
          invocationPositions_append, invocationPositions_append,
          invocationPositions_retry_note, invocationPositions_sleep,
          invocationPositions_receive_note, hm]
        simp [List.replicate_succ]

/-- A constant list is a `≤`-chain. -/
theorem chain'_le_replicate (m a : Nat) :
    List.Chain' (· ≤ ·) (List.replicate m a) := by
  induction m with
  | zero => exact List.chain'_nil
  | succ k ih =>
    rw [List.replicate_succ, List.chain'_cons']
    refine ⟨fun y hy => ?_, ih⟩
    have : y ∈ List.replicate k a := List.mem_of_mem_head? hy
    rw [List.eq_of_mem_replicate this]

/-- Every member of a block concatenation is the head of one of its
blocks. -/
theorem mem_blockJoin {ps : List (Nat × Nat)} {x : Nat}
    (hx : x ∈ blockJoin ps) : ∃ p ∈ ps, p.1 = x := by
  induction ps with
  | nil => simp [blockJoin] at hx
  | cons p ps ih =>
    simp only [blockJoin, List.map_cons, List.flatten_cons, List.mem_append] at hx
    rcases hx with hx | hx
    · exact ⟨p, List.mem_cons_self _ _, (List.eq_of_mem_replicate hx).symm⟩
    · obtain ⟨q, hq, hqx⟩ := ih hx
      exact ⟨q, List.mem_cons_of_mem _ hq, hqx⟩

/-- A member of `getLast?` is a member of the list. -/
theorem mem_of_getLastQ {α : Type} {l : List α} {x : α} (h : x ∈ l.getLast?) :
    x ∈ l := by
  rcases List.mem_getLast?_eq_getLast h with ⟨hne, rfl⟩
  exact List.getLast_mem hne

/-- Contiguous blocks with strictly increasing, nonempty heads form a
`≤`-chain. -/
theorem blockJoin_chain_le :
    ∀ (ps : List (Nat × Nat)), List.Chain' (· < ·) (ps.map Prod.fst) →
      (∀ p ∈ ps, 1 ≤ p.2) → List.Chain' (· ≤ ·) (blockJoin ps) := by
  intro ps
  induction ps with
  | nil => intro _ _; exact List.chain'_nil
  | cons p ps ih =>
    intro hchain hpos
    have hpair : ∀ q ∈ ps, p.1 < q.1 := by
      have hp := List.chain'_iff_pairwise.mp hchain
      rw [List.map_cons] at hp
      have h1 := (List.pairwise_cons.mp hp).1
      intro q hq
      exact h1 q.1 (List.mem_map.mpr ⟨q, hq, rfl⟩)
    have htail : List.Chain' (· < ·) (ps.map Prod.fst) := by
      rw [List.map_cons, List.chain'_cons'] at hchain
      exact hchain.2
    show List.Chain' (· ≤ ·) (List.replicate p.2 p.1 ++ blockJoin ps)
    refine List.Chain'.append (chain'_le_replicate _ _)
      (ih htail fun q hq => hpos q (List.mem_cons_of_mem _ hq)) ?_
    intro x hxl y hy
    have hx : x = p.1 := List.eq_of_mem_replicate (mem_of_getLastQ hxl)
    obtain ⟨q, hq, hqy⟩ := mem_blockJoin (List.mem_of_mem_head? hy)
    rw [hx, ← hqy]
    exact le_of_lt (hpair q hq)

/-- The invocation positions of `process_events_go` decompose into
contiguous blocks: one block of repeated invocations per dispatched event,
with strictly increasing event positions, each at or after the starting
position. -/
theorem process_events_go_blocks {S T : Type} (env : EventHandlerEnv S T)
    (logger : Bool) (d evFuel : Nat) (t : Transaction) :
    ∀ (events : List Event) (idx : Nat) (st : S) (reg : HandlerRegistry) (tctx : T),
      ∃ ps : List (Nat × Nat),
        invocationPositions
            (process_events_go env logger d evFuel t events idx st reg tctx).trace =
          blockJoin ps
        ∧ List.Chain' (· < ·) (ps.map Prod.fst)
        ∧ (∀ p ∈ ps, 1 ≤ p.2 ∧ idx ≤ p.1) := by
  intro events
  induction events with
  | nil =>
    intro idx st reg tctx
    exact ⟨[], rfl, List.chain'_nil, by simp⟩
  | cons e rest ih =>
    intro idx st reg tctx
    by_cases hx : reg.handler_exists e.emitter.address e.name = true
    · rw [process_events_go_cons_pos env logger d evFuel t e rest idx st reg tctx hx]
      obtain ⟨m, hm⟩ := event_retry_loop_positions env logger d t e idx
        ((reg.get_handler e.emitter.address e.name).get hx) evFuel st reg tctx
      cases hres : (event_retry_loop env logger d t e idx
          ((reg.get_handler e.emitter.address e.name).get hx) evFuel st reg tctx).result with
      | none =>
        simp only [hres]
        rw [invocationPositions_append, invocationPositions_receive_note, hm]
        cases m with
        | zero => exact ⟨[], by simp [blockJoin], List.chain'_nil, by simp⟩
        | succ k =>
          refine ⟨[(idx, k + 1)], by simp [blockJoin], List.chain'_singleton _, ?_⟩
          intro p hp
          simp only [List.mem_singleton] at hp
          subst hp
          exact ⟨Nat.succ_le_succ (Nat.zero_le k), le_refl idx⟩
      | some r =>
        cases r with
        | error err =>
          simp only [hres]
          rw [invocationPositions_append, invocationPositions_receive_note, hm]
          cases m with
          | zero => exact ⟨[], by simp [blockJoin], List.chain'_nil, by simp⟩
          | succ k =>
            refine ⟨[(idx, k + 1)], by simp [blockJoin], List.chain'_singleton _, ?_⟩
            intro p hp
            simp only [List.mem_singleton] at hp
            subst hp
            exact ⟨Nat.succ_le_succ (Nat.zero_le k), le_refl idx⟩
        | ok u =>
          cases u
          simp only [hres]
          obtain ⟨ps', hps', hchain', hbound'⟩ := ih (idx + 1)
            (event_retry_loop env logger d t e idx
              ((reg.get_handler e.emitter.address e.name).get hx) evFuel st reg tctx).state
            (event_retry_loop env logger d t e idx
              ((reg.get_handler e.emitter.address e.name).get hx) evFuel st reg tctx).registry
            (event_retry_loop env logger d t e idx
              ((reg.get_handler e.emitter.address e.name).get hx) evFuel st reg tctx).tctx
          rw [invocationPositions_append, invocationPositions_append,
            invocationPositions_append, invocationPositions_receive_note,
            invocationPositions_finish_note, hm, hps']
          cases m with
          | zero =>
            refine ⟨ps', by simp, hchain', ?_⟩
            intro p hp
            exact ⟨(hbound' p hp).1, le_trans (Nat.le_succ idx) (hbound' p hp).2⟩
          | succ k =>
            refine ⟨(idx, k + 1) :: ps', by simp [blockJoin], ?_, ?_⟩
            · rw [List.map_cons, List.chain'_cons']
              refine ⟨fun y hy => ?_, hchain'⟩
              have hy' : y ∈ ps'.map Prod.fst := List.mem_of_mem_head? hy
              obtain ⟨q, hq, hqy⟩ := List.mem_map.mp hy'
              have := (hbound' q hq).2
              omega
            · intro p hp
              rcases List.mem_cons.mp hp with hp1 | hp2
              · subst hp1
                exact ⟨Nat.succ_le_succ (Nat.zero_le k), le_refl idx⟩
              · exact ⟨(hbound' p hp2).1,
                  le_trans (Nat.le_succ idx) (hbound' p hp2).2⟩
    · rw [Bool.not_eq_true] at hx
      rw [process_events_go_cons_neg env logger d evFuel t e rest idx st reg tctx hx]
      obtain ⟨ps, h1, h2, h3⟩ := ih (idx + 1) st reg tctx
      refine ⟨ps, h1, h2, fun p hp =>
        ⟨(h3 p hp).1, le_trans (Nat.le_succ idx) (h3 p hp).2⟩⟩

/-- **C5.** Within a single transaction, events are dispatched strictly
sequentially in the order they appear in the transaction's event sequence:
the recorded invocation positions are a concatenation of contiguous blocks —
all retries of one event stay together — whose event positions strictly
increase, so no event is reordered with or skipped ahead of another and a
retrying event blocks every later event until it resolves; the position
sequence is therefore nondecreasing.  (No concurrent invocation exists by
construction of the sequential loop.) -/
theorem c5_event_dispatch_order :
    ∀ (S T : Type) (env : EventHandlerEnv S T) (logger : Bool) (d evFuel : Nat)
      (t : Transaction) (st : S) (reg : HandlerRegistry) (tctx : T),
      ∃ ps : List (Nat × Nat),
        invocationPositions
            (process_events env logger d evFuel t st reg tctx).trace = blockJoin ps
        ∧ List.Chain' (· < ·) (ps.map Prod.fst)
        ∧ (∀ p ∈ ps, 1 ≤ p.2)
        ∧ List.Chain' (· ≤ ·)
            (invocationPositions (process_events env logger d evFuel t st reg tctx).trace) := by
  intro S T env logger d evFuel t st reg tctx
  obtain ⟨ps, hps, hchain, hbound⟩ :=
    process_events_go_blocks env logger d evFuel t t.events 0 st reg tctx
  refine ⟨ps, hps, hchain, fun p hp => (hbound p hp).1, ?_⟩
  rw [show invocationPositions (process_events env logger d evFuel t st reg tctx).trace =
    blockJoin ps from hps]
  exact blockJoin_chain_le ps hchain (fun p hp => (hbound p hp).1)

/-- The logger affects only observer entries of the event retry loop: with
and without a logger the loop returns the same result, state, registry and
transaction context, and the non-observer part of its trace (sleeps and
invocations) coincides. -/
theorem event_retry_loop_obs {S T : Type} (env : EventHandlerEnv S T) (d : Nat)
    (t : Transaction) (e : Event) (idx : Nat) (hid : HandlerId) :
    ∀ (fuel : Nat) (st : S) (reg : HandlerRegistry) (tctx : T),
      (event_retry_loop env true d t e idx hid fuel st reg tctx).result =
        (event_retry_loop env false d t e idx hid fuel st reg tctx).result
      ∧ (event_retry_loop env true d t e idx hid fuel st reg tctx).state =
        (event_retry_loop env false d t e idx hid fuel st reg tctx).state
      ∧ (event_retry_loop env true d t e idx hid fuel st reg tctx).registry =
        (event_retry_loop env false d t e idx hid fuel st reg tctx).registry
      ∧ (event_retry_loop env true d t e idx hid fuel st reg tctx).tctx =
        (event_retry_loop env false d t e idx hid fuel st reg tctx).tctx
      ∧ nonObserverTrace
          (event_retry_loop env true d t e idx hid fuel st reg tctx).trace =
        (event_retry_loop env false d t e idx hid fuel st reg tctx).trace := by
  intro fuel
  induction fuel with
  | zero => intro st reg tctx; exact ⟨rfl, rfl, rfl, rfl, rfl⟩
  | succ n ih =>
    intro st reg tctx
    simp only [event_retry_loop]
    cases hres : (env hid st t e reg tctx).result with
    | ok u => cases u; exact ⟨rfl, rfl, rfl, rfl, rfl⟩
    | error err =>
      cases err with
      | UnrecoverableError c => exact ⟨rfl, rfl, rfl, rfl, rfl⟩
      | EventRetryError c =>
        obtain ⟨h1, h2, h3, h4, h5⟩ := ih (env hid st t e reg tctx).state
          (env hid st t e reg tctx).registry (env hid st t e reg tctx).tctx
        refine ⟨h1, h2, h3, h4, ?_⟩
        simp only [nonObserverTrace, List.filter_cons, List.filter_append,
          TraceEntry.isObserverCall, Bool.not_true, Bool.not_false] at h5 ⊢
        simp [h5]

/-- The logger affects only observer entries of `process_events_go`: result,
state, registry, transaction context and the non-observer trace coincide
with and without a logger. -/
theorem process_events_go_obs {S T : Type} (env : EventHandlerEnv S T)
    (d evFuel : Nat) (t : Transaction) :
    ∀ (events : List Event) (idx : Nat) (st : S) (reg : HandlerRegistry) (tctx : T),
      (process_events_go env true d evFuel t events idx st reg tctx).result =
        (process_events_go env false d evFuel t events idx st reg tctx).result
      ∧ (process_events_go env true d evFuel t events idx st reg tctx).state =
        (process_events_go env false d evFuel t events idx st reg tctx).state
      ∧ (process_events_go env true d evFuel t events idx st reg tctx).registry =
        (process_events_go env false d evFuel t events idx st reg tctx).registry
      ∧ (process_events_go env true d evFuel t events idx st reg tctx).tctx =
        (process_events_go env false d evFuel t events idx st reg tctx).tctx
      ∧ nonObserverTrace
          (process_events_go env true d evFuel t events idx st reg tctx).trace =
        (process_events_go env false d evFuel t events idx st reg tctx).trace := by
  intro events
  induction events with
  | nil => intro idx st reg tctx; exact ⟨rfl, rfl, rfl, rfl, rfl⟩
  | cons e rest ih =>
    intro idx st reg tctx
    by_cases hx : reg.handler_exists e.emitter.address e.name = true
    · rw [process_events_go_cons_pos env true d evFuel t e rest idx st reg tctx hx,
        process_events_go_cons_pos env false d evFuel t e rest idx st reg tctx hx]
      obtain ⟨l1, l2, l3, l4, l5⟩ := event_retry_loop_obs env d t e idx
        ((reg.get_handler e.emitter.address e.name).get hx) evFuel st reg tctx
      cases hres : (event_retry_loop env true d t e idx
          ((reg.get_handler e.emitter.address e.name).get hx) evFuel st reg tctx).result with
      | none =>
        have hresF : (event_retry_loop env false d t e idx
            ((reg.get_handler e.emitter.address e.name).get hx) evFuel st reg tctx).result =
            none := l1.symm.trans hres
        simp only [hres, hresF]
        refine ⟨by trivial, l2, l3, l4, ?_⟩
        simp only [nonObserverTrace, List.filter_append, List.filter_cons,
          TraceEntry.isObserverCall, Bool.not_true, Bool.not_false] at l5 ⊢
        simp [l5]
      | some r =>
        cases r with
        | error err =>
          have hresF : (event_retry_loop env false d t e idx
              ((reg.get_handler e.emitter.address e.name).get hx) evFuel st reg tctx).result =
              some (.error err) := l1.symm.trans hres
          simp only [hres, hresF]
          refine ⟨by trivial, l2, l3, l4, ?_⟩
          simp only [nonObserverTrace, List.filter_append, List.filter_cons,
            TraceEntry.isObserverCall, Bool.not_true, Bool.not_false] at l5 ⊢
          simp [l5]
        | ok u =>
          cases u
          have hresF : (event_retry_loop env false d t e idx
              ((reg.get_handler e.emitter.address e.name).get hx) evFuel st reg tctx).result =
              some (.ok ()) := l1.symm.trans hres
          simp only [hres, hresF]
          rw [l2, l3, l4]
          obtain ⟨g1, g2, g3, g4, g5⟩ := ih (idx + 1)
            (event_retry_loop env false d t e idx
              ((reg.get_handler e.emitter.address e.name).get hx) evFuel st reg tctx).state
            (event_retry_loop env false d t e idx
              ((reg.get_handler e.emitter.address e.name).get hx) evFuel st reg tctx).registry
            (event_retry_loop env false d t e idx
              ((reg.get_handler e.emitter.address e.name).get hx) evFuel st reg tctx).tctx
          refine ⟨g1, g2, g3, g4, ?_⟩
          simp only [nonObserverTrace, List.filter_append, List.filter_cons,
            TraceEntry.isObserverCall, Bool.not_true, Bool.not_false] at l5 g5 ⊢
          simp [l5, g5]
    · rw [Bool.not_eq_true] at hx
      rw [process_events_go_cons_neg env true d evFuel t e rest idx st reg tctx hx,
        process_events_go_cons_neg env false d evFuel t e rest idx st reg tctx hx]
      exact ih (idx + 1) st reg tctx

/-- The logger affects only observer entries of the default transaction
handler (which forwards to `process_events`). -/
theorem default_transaction_handler_obs {S : Type} (env : EventHandlerEnv S Unit)
    (evFuel d : Nat) (t : Transaction) (st : S) (reg : HandlerRegistry) :
    (default_transaction_handler env evFuel true d st t reg).result =
      (default_transaction_handler env evFuel false d st t reg).result
    ∧ (default_transaction_handler env evFuel true d st t reg).state =
      (default_transaction_handler env evFuel false d st t reg).state
    ∧ (default_transaction_handler env evFuel true d st t reg).registry =
      (default_transaction_handler env evFuel false d st t reg).registry
    ∧ nonObserverTrace (default_transaction_handler env evFuel true d st t reg).trace =
      (default_transaction_handler env evFuel false d st t reg).trace := by
  obtain ⟨h1, h2, h3, _, h5⟩ :=
    process_events_go_obs env d evFuel t t.events 0 st reg ()
  refine ⟨?_, h2, h3, h5⟩
  show ((process_events env true d evFuel t st reg ()).result.map
      (Except.mapError eventToTransactionError)) =
    ((process_events env false d evFuel t st reg ()).result.map
      (Except.mapError eventToTransactionError))
  rw [show (process_events env true d evFuel t st reg ()).result =
    (process_events env false d evFuel t st reg ()).result from h1]

/-- The logger affects only observer entries of the transaction retry loop
running the default transaction handler. -/
theorem tx_retry_loop_default_obs {S : Type} (env : EventHandlerEnv S Unit)
    (evFuel txD evD : Nat) (t : Transaction) :
    ∀ (txFuel : Nat) (st : S) (reg : HandlerRegistry),
      (tx_retry_loop (default_transaction_handler env) evFuel true txD evD t
          txFuel st reg).result =
        (tx_retry_loop (default_transaction_handler env) evFuel false txD evD t
          txFuel st reg).result
      ∧ (tx_retry_loop (default_transaction_handler env) evFuel true txD evD t
          txFuel st reg).state =
        (tx_retry_loop (default_transaction_handler env) evFuel false txD evD t
          txFuel st reg).state
      ∧ (tx_retry_loop (default_transaction_handler env) evFuel true txD evD t
          txFuel st reg).registry =
        (tx_retry_loop (default_transaction_handler env) evFuel false txD evD t
          txFuel st reg).registry
      ∧ nonObserverTrace
          (tx_retry_loop (default_transaction_handler env) evFuel true txD evD t
            txFuel st reg).trace =
        (tx_retry_loop (default_transaction_handler env) evFuel false txD evD t
          txFuel st reg).trace := by
  intro txFuel
  induction txFuel with
  | zero => intro st reg; exact ⟨rfl, rfl, rfl, rfl⟩
  | succ n ih =>
    intro st reg
    obtain ⟨d1, d2, d3, d4⟩ :=
      default_transaction_handler_obs env evFuel evD t st reg
    simp only [tx_retry_loop]
    cases hres : (default_transaction_handler env evFuel true evD st t reg).result with
    | none =>
      have hresF : (default_transaction_handler env evFuel false evD st t reg).result =
          none := d1.symm.trans hres
      simp only [hres, hresF]
      refine ⟨by trivial, d2, d3, ?_⟩
      simp only [nonObserverTrace, List.filter_cons, TraceEntry.isObserverCall,
        Bool.not_true, Bool.not_false] at d4 ⊢
      simp [d4]
    | some r =>
      cases r with
      | ok u =>
        cases u
        have hresF : (default_transaction_handler env evFuel false evD st t reg).result =
            some (.ok ()) := d1.symm.trans hres
        simp only [hres, hresF]
        refine ⟨by trivial, d2, d3, ?_⟩
        simp only [nonObserverTrace, List.filter_cons, TraceEntry.isObserverCall,
          Bool.not_true, Bool.not_false] at d4 ⊢
        simp [d4]
      | error err =>
        cases err with
        | UnrecoverableError c =>
          have hresF : (default_transaction_handler env evFuel false evD st t reg).result =
              some (.error (.UnrecoverableError c)) := d1.symm.trans hres
          simp only [hres, hresF]
          refine ⟨by trivial, d2, d3, ?_⟩
          simp only [nonObserverTrace, List.filter_cons, List.filter_append,
            TraceEntry.isObserverCall, Bool.not_true, Bool.not_false] at d4 ⊢
          simp [d4]
        | TransactionRetryError c =>
          have hresF : (default_transaction_handler env evFuel false evD st t reg).result =
              some (.error (.TransactionRetryError c)) := d1.symm.trans hres
          simp only [hres, hresF]
          rw [d2, d3]
          obtain ⟨g1, g2, g3, g4⟩ := ih
            (default_transaction_handler env evFuel false evD st t reg).state
            (default_transaction_handler env evFuel false evD st t reg).registry
          refine ⟨g1, g2, g3, ?_⟩
          simp only [nonObserverTrace, List.filter_cons, List.filter_append,
            TraceEntry.isObserverCall, Bool.not_true, Bool.not_false] at d4 g4 ⊢
          simp [d4, g4]

/-! ## Claim theorems -/

/-- **C1.** For every transaction in which no event has a handler registered
under its `(emitter, event name)` key — including a transaction with zero
events — `process_transaction` returns the skipped outcome `Ok(false)`, a
success and not an error, leaves the state and the registry untouched, emits
only the `receive_transaction(dispatchable = false)` notification, and never
invokes the Transaction Handler. -/
theorem c1_skip_without_handlers {S : Type} (h : TransactionHandlerFn S)
    (txFuel evFuel : Nat) (logger : Bool) (txD evD : Nat) (t : Transaction)
    (st : S) (reg : HandlerRegistry)
    (hnd : txDispatchable reg t = false) :
    process_transaction h txFuel evFuel logger txD evD t st reg =
      ⟨some (.ok false), st, reg,
        if logger then [TraceEntry.receiveTransaction t.intent_hash false false]
        else []⟩
    ∧ countTransactionInvocations
        (process_transaction h txFuel evFuel logger txD evD t st reg).trace = 0 := by
  constructor
  · simp [process_transaction, hnd]
  · cases logger <;>
      simp [process_transaction, hnd, countTransactionInvocations]

/-- Witness for C1: a transaction with zero events against a nonempty
registry is skipped with `Ok(false)`, nothing mutated, one notification, no
transaction-handler invocation. -/
theorem c1_skip_without_handlers_witness :
    txDispatchable sampleRegA emptyTx = false
    ∧ (process_transaction (default_transaction_handler sampleEnv) 5 5 true 7 9
          emptyTx 0 sampleRegA =
        ⟨some (.ok false), 0, sampleRegA,
          [TraceEntry.receiveTransaction "tx0" false false]⟩
      ∧ countTransactionInvocations
          (process_transaction (default_transaction_handler sampleEnv) 5 5 true 7 9
            emptyTx 0 sampleRegA).trace = 0) :=
  ⟨rfl, c1_skip_without_handlers (default_transaction_handler sampleEnv)
    5 5 true 7 9 emptyTx 0 sampleRegA rfl⟩

/-- **C6 (amended).** An event whose `(emitter, event name)` key has no
registered handler when it is reached is skipped entirely: no handler is
invoked, no retry applies, and no observer call at all is made for it —
processing continues with the next event exactly as if the unmatched event
were absent. -/
theorem c6_unmatched_event_skipped {S T : Type} (env : EventHandlerEnv S T)
    (logger : Bool) (d evFuel : Nat) (t : Transaction) (e : Event)
    (rest : List Event) (idx : Nat) (st : S) (reg : HandlerRegistry) (tctx : T)
    (habs : reg.handler_exists e.emitter.address e.name = false) :
    process_events_go env logger d evFuel t (e :: rest) idx st reg tctx =
      process_events_go env logger d evFuel t rest (idx + 1) st reg tctx := by
  simp [process_events_go, habs]

/-- Witness for C6: with an empty registry the single unmatched event of
`sampleTxA` is skipped and the outcome is that of the empty remainder. -/
theorem c6_unmatched_event_skipped_witness :
    (HandlerRegistry.mk []).handler_exists
        sampleEventA.emitter.address sampleEventA.name = false
    ∧ process_events_go sampleEnv true 10 5 sampleTxA [sampleEventA] 0 0
        (HandlerRegistry.mk []) () =
      process_events_go sampleEnv true 10 5 sampleTxA [] 1 0
        (HandlerRegistry.mk []) () :=
  ⟨rfl, c6_unmatched_event_skipped sampleEnv true 10 5 sampleTxA sampleEventA
    [] 0 0 (HandlerRegistry.mk []) () rfl⟩

/-- Counterexample to C6 as stated: for an event with no registered handler
the code makes no observer call at all — in particular it does not emit the
`receive_event(dispatchable = false)` notification the claim asserts.  With
an empty registry and a logger configured, processing `sampleTxA` leaves the
trace empty. -/
theorem c6_counterexample_no_observer_call :
    (process_events sampleEnv true 10 5 sampleTxA 0 (HandlerRegistry.mk []) ()).trace = []
    ∧ TraceEntry.receiveEvent "tx1" 0 false false ∉
        (process_events sampleEnv true 10 5 sampleTxA 0 (HandlerRegistry.mk []) ()).trace := by
  refine ⟨rfl, ?_⟩
  intro hmem
  simp only [show (process_events sampleEnv true 10 5 sampleTxA 0
    (HandlerRegistry.mk []) ()).trace = [] from rfl] at hmem
  exact (List.not_mem_nil _ hmem)

/-- **C4.** Any `UnrecoverableError` — from an event handler inside
`process_events` or from the Transaction Handler — immediately aborts the
remaining events of the transaction and the transaction itself, and makes
`run` return an error carrying the same underlying cause, with no further
transaction from the channel processed:
1. an event handler returning `UnrecoverableError` ends its retry loop at
   that single invocation with that error;
2. an error escaping `process_events` is always an `UnrecoverableError`
   (retry errors are recovered locally);
3. an erroring event list aborts identically with any further events
   appended — the remaining events are never reached;
4. the default Transaction Handler wraps the escaping error preserving the
   cause;
5. a Transaction-Handler `UnrecoverableError` makes `process_transaction`
   (on a dispatchable transaction) return the same cause after notifying the
   observer;
6. a transaction whose processing errors makes the run loop return that very
   error, identically with or without further transactions in the channel. -/
theorem c4_unrecoverable_propagation :
    (∀ (S T : Type) (env : EventHandlerEnv S T) (logger : Bool) (d : Nat)
        (t : Transaction) (e : Event) (idx : Nat) (hid : HandlerId)
        (fuel : Nat) (st : S) (reg : HandlerRegistry) (tctx : T)
        (cause : String),
      (env hid st t e reg tctx).result = .error (.UnrecoverableError cause) →
        event_retry_loop env logger d t e idx hid (fuel + 1) st reg tctx =
          ⟨some (.error (.UnrecoverableError cause)),
            (env hid st t e reg tctx).state, (env hid st t e reg tctx).registry,
            (env hid st t e reg tctx).tctx, [.invokeEventHandler hid idx]⟩)
    ∧ (∀ (S T : Type) (env : EventHandlerEnv S T) (logger : Bool)
        (d evFuel : Nat) (t : Transaction) (events : List Event) (idx : Nat)
        (st : S) (reg : HandlerRegistry) (tctx : T) (err : EventHandlerError),
      (process_events_go env logger d evFuel t events idx st reg tctx).result =
          some (.error err) →
        ∃ cause, err = .UnrecoverableError cause)
    ∧ (∀ (S T : Type) (env : EventHandlerEnv S T) (logger : Bool)
        (d evFuel : Nat) (t : Transaction) (events more : List Event) (idx : Nat)
        (st : S) (reg : HandlerRegistry) (tctx : T) (err : EventHandlerError),
      (process_events_go env logger d evFuel t events idx st reg tctx).result =
          some (.error err) →
        process_events_go env logger d evFuel t (events ++ more) idx st reg tctx =
          process_events_go env logger d evFuel t events idx st reg tctx)
    ∧ (∀ (S : Type) (env : EventHandlerEnv S Unit) (logger : Bool)
        (d evFuel : Nat) (t : Transaction) (st : S) (reg : HandlerRegistry)
        (cause : String),
      (process_events env logger d evFuel t st reg ()).result =
          some (.error (.UnrecoverableError cause)) →
        (default_transaction_handler env evFuel logger d st t reg).result =
          some (.error (.UnrecoverableError cause)))
    ∧ (∀ (S : Type) (h : TransactionHandlerFn S) (evFuel : Nat) (logger : Bool)
        (txD evD txFuel : Nat) (t : Transaction) (st : S)
        (reg : HandlerRegistry) (cause : String),
      (h evFuel logger evD st t reg).result =
          some (.error (.UnrecoverableError cause)) →
      txDispatchable reg t = true →
        (process_transaction h (txFuel + 1) evFuel logger txD evD t st reg).result =
          some (.error (.UnrecoverableError cause)))
    ∧ (∀ (S : Type) (h : TransactionHandlerFn S) (txFuel evFuel : Nat)
        (logger : Bool) (txD evD : Nat) (t : Transaction)
        (rest : List Transaction) (st : S) (reg : HandlerRegistry)
        (err : TransactionStreamProcessorError),
      (process_transaction h txFuel evFuel logger txD evD t st reg).result =
          some (.error err) →
        run_go h txFuel evFuel logger txD evD (t :: rest) st reg =
          run_go h txFuel evFuel logger txD evD [t] st reg
        ∧ (run_go h txFuel evFuel logger txD evD (t :: rest) st reg).result =
            some (.error err)) := by
  refine ⟨?_, ?_, ?_, ?_, ?_, ?_⟩
  · intro S T env logger d t e idx hid fuel st reg tctx cause hres
    simp only [event_retry_loop, hres]
  · intro S T env logger d evFuel t events
    induction events with
    | nil => intro idx st reg tctx err h; simp [process_events_go] at h
    | cons e rest ih =>
      intro idx st reg tctx err h
      simp only [process_events_go] at h
      split at h
      · split at h
        · exact ih _ _ _ _ _ h
        · rename_i heq
          simp only [Option.some.injEq, Except.error.injEq] at h
          subst h
          exact event_retry_loop_error_unrecoverable env logger d t e idx _ _ _ _ _ _ heq
        · simp at h
      · exact ih _ _ _ _ _ h
  · intro S T env logger d evFuel t events
    induction events with
    | nil => intro more idx st reg tctx err h; simp [process_events_go] at h
    | cons e rest ih =>
      intro more idx st reg tctx err h
      by_cases hx : reg.handler_exists e.emitter.address e.name = true
      · rw [process_events_go_cons_pos env logger d evFuel t e rest idx st reg tctx hx] at h
        simp only [List.cons_append]
        rw [process_events_go_cons_pos env logger d evFuel t e (rest ++ more) idx st reg tctx hx,
          process_events_go_cons_pos env logger d evFuel t e rest idx st reg tctx hx]
        cases hres : (event_retry_loop env logger d t e idx
            ((reg.get_handler e.emitter.address e.name).get hx) evFuel st reg tctx).result with
        | none => simp only [hres] at h ⊢
        | some r =>
          cases r with
          | ok u =>
            cases u
            simp only [hres] at h ⊢
            rw [ih more _ _ _ _ _ h]
          | error err2 => simp only [hres] at h ⊢
      · rw [Bool.not_eq_true] at hx
        rw [process_events_go_cons_neg env logger d evFuel t e rest idx st reg tctx hx] at h
        simp only [List.cons_append]
        rw [process_events_go_cons_neg env logger d evFuel t e (rest ++ more) idx st reg tctx hx,
          process_events_go_cons_neg env logger d evFuel t e rest idx st reg tctx hx]
        exact ih more _ _ _ _ _ h
  · intro S env logger d evFuel t st reg cause hres
    simp [default_transaction_handler, hres, Except.mapError, eventToTransactionError]
  · intro S h evFuel logger txD evD txFuel t st reg cause hres hdisp
    simp only [process_transaction, hdisp, if_true, tx_retry_loop, hres]
  · intro S h txFuel evFuel logger txD evD t rest st reg err hres
    constructor
    · simp only [run_go, hres]
    · simp only [run_go, hres]

/-- **C8 (amended).** `run` returns success once the source channel is
drained (after the last received transaction is fully processed), and the
periodic-reporting task is cancelled before that clean-shutdown return; on
the unrecoverable-error return, however, `run` returns early through the `?`
operator without cancelling the task, which is left running whenever a
logger is configured (the task is spawned iff a logger is configured):
1. a drained channel yields `Ok(())` with the periodic task cancelled and
   nothing else touched;
2. after a successfully processed transaction the loop continues on the
   remaining transactions from the updated state, first notifying
   `finish_transaction`;
3. every clean `Ok(())` exit has the periodic task cancelled;
4. every error exit of the receive loop leaves the task in its spawned
   state — still running iff a logger is configured;
5. a stream that fails to start is fatal before the task is spawned. -/
theorem c8_shutdown_and_cancellation :
    (∀ (S : Type) (h : TransactionHandlerFn S) (txFuel evFuel : Nat)
        (logger : Bool) (txD evD : Nat) (st : S) (reg : HandlerRegistry),
      run_go h txFuel evFuel logger txD evD [] st reg =
        ⟨some (.ok ()), st, reg, false, []⟩)
    ∧ (∀ (S : Type) (h : TransactionHandlerFn S) (txFuel evFuel : Nat)
        (logger : Bool) (txD evD : Nat) (t : Transaction)
        (rest : List Transaction) (st : S) (reg : HandlerRegistry) (b : Bool),
      (process_transaction h txFuel evFuel logger txD evD t st reg).result =
          some (.ok b) →
        run_go h txFuel evFuel logger txD evD (t :: rest) st reg =
          ⟨(run_go h txFuel evFuel logger txD evD rest
              (process_transaction h txFuel evFuel logger txD evD t st reg).state
              (process_transaction h txFuel evFuel logger txD evD t st reg).registry).result,
            (run_go h txFuel evFuel logger txD evD rest
              (process_transaction h txFuel evFuel logger txD evD t st reg).state
              (process_transaction h txFuel evFuel logger txD evD t st reg).registry).state,
            (run_go h txFuel evFuel logger txD evD rest
              (process_transaction h txFuel evFuel logger txD evD t st reg).state
              (process_transaction h txFuel evFuel logger txD evD t st reg).registry).registry,
            (run_go h txFuel evFuel logger txD evD rest
              (process_transaction h txFuel evFuel logger txD evD t st reg).state
              (process_transaction h txFuel evFuel logger txD evD t st reg).registry).periodicTaskActive,
            (process_transaction h txFuel evFuel logger txD evD t st reg).trace
              ++ (if logger then [TraceEntry.finishTransaction t.intent_hash b] else [])
              ++ (run_go h txFuel evFuel logger txD evD rest
                  (process_transaction h txFuel evFuel logger txD evD t st reg).state
                  (process_transaction h txFuel evFuel logger txD evD t st reg).registry).trace⟩)
    ∧ (∀ (S : Type) (h : TransactionHandlerFn S) (txFuel evFuel : Nat)
        (logger : Bool) (txD evD : Nat) (txs : List Transaction) (st : S)
        (reg : HandlerRegistry),
      (run_go h txFuel evFuel logger txD evD txs st reg).result = some (.ok ()) →
        (run_go h txFuel evFuel logger txD evD txs st reg).periodicTaskActive = false)
    ∧ (∀ (S : Type) (h : TransactionHandlerFn S) (txFuel evFuel : Nat)
        (logger : Bool) (txD evD : Nat) (txs : List Transaction) (st : S)
        (reg : HandlerRegistry) (err : TransactionStreamProcessorError),
      (run_go h txFuel evFuel logger txD evD txs st reg).result = some (.error err) →
        (run_go h txFuel evFuel logger txD evD txs st reg).periodicTaskActive = logger)
    ∧ (∀ (S : Type) (h : TransactionHandlerFn S) (txFuel evFuel : Nat)
        (logger : Bool) (txD evD : Nat) (cause : String) (st : S)
        (reg : HandlerRegistry),
      run h txFuel evFuel logger txD evD (.error cause) st reg =
        ⟨some (.error (.UnrecoverableError cause)), st, reg, false, []⟩) := by
  refine ⟨?_, ?_, ?_, ?_, ?_⟩
  · intro S h txFuel evFuel logger txD evD st reg
    rfl
  · intro S h txFuel evFuel logger txD evD t rest st reg b hok
    simp only [run_go, hok]
  · intro S h txFuel evFuel logger txD evD txs
    induction txs with
    | nil => intro st reg _; rfl
    | cons t rest ih =>
      intro st reg hres
      simp only [run_go] at hres ⊢
      cases hpt : (process_transaction h txFuel evFuel logger txD evD t st reg).result with
      | none => rw [hpt] at hres; exact Option.noConfusion hres
      | some r =>
        cases r with
        | error e => rw [hpt] at hres; simp at hres
        | ok b => rw [hpt] at hres; exact ih _ _ hres
  · intro S h txFuel evFuel logger txD evD txs
    induction txs with
    | nil => intro st reg err hres; simp [run_go] at hres
    | cons t rest ih =>
      intro st reg err hres
      simp only [run_go] at hres ⊢
      cases hpt : (process_transaction h txFuel evFuel logger txD evD t st reg).result with
      | none => rw [hpt] at hres
      | some r =>
        cases r with
        | error e => rfl
        | ok b => rw [hpt] at hres; exact ih _ _ _ hres
  · intro S h txFuel evFuel logger txD evD cause st reg
    rfl

/-- Counterexample to C8 as stated: the claim asserts the periodic-reporting
task is cancelled on *every* exit of `run`, including the
unrecoverable-error return; but when the single transaction of the channel
fails unrecoverably with a logger configured, `run` returns the error with
the periodic task still running. -/
theorem c8_counterexample_task_left_running :
    (run (default_transaction_handler sampleEnv) 3 3 true 7 9
        (.ok [sampleTxB]) 0 sampleRegB).result =
      some (.error (.UnrecoverableError "boom"))
    ∧ (run (default_transaction_handler sampleEnv) 3 3 true 7 9
        (.ok [sampleTxB]) 0 sampleRegB).periodicTaskActive = true := by
  exact ⟨rfl, rfl⟩

/-- **C9.** Dispatch keying is consistent: every lookup site —
`process_transaction`'s dispatchability check, and the `handler_exists` /
`get_handler` pair of `process_events` — keys events by the single canonical
`(emitter address, event name)` pair `dispatchKey`, and registration lives
in the same key space (registering under a key makes lookup under that key
return the registered handler).  The two emitter variants are not kept
apart by the key — a `Method` and a `Function` emitter with coinciding
address strings collide — which is exactly the claim's sanctioned
"normalized to a canonical string key consistently for both registration
and lookup" branch; the gateway conversion itself preserves the variant. -/
theorem c9_canonical_key_consistency :
    (∀ (reg : HandlerRegistry) (t : Transaction),
      txDispatchable reg t =
        t.events.any fun e => reg.handler_exists (dispatchKey e).1 (dispatchKey e).2)
    ∧ (∀ (reg : HandlerRegistry) (e : Event),
      reg.handler_exists e.emitter.address e.name =
        reg.handler_exists (dispatchKey e).1 (dispatchKey e).2
      ∧ reg.get_handler e.emitter.address e.name =
          reg.get_handler (dispatchKey e).1 (dispatchKey e).2)
    ∧ (∀ (reg : HandlerRegistry) (address name : String) (hid : HandlerId),
      (reg.add_handler address name hid).get_handler address name = some hid)
    ∧ ((EventEmitter.Method "addr").address =
        (EventEmitter.Function "addr" "bp").address
      ∧ EventEmitter.Method "addr" ≠ EventEmitter.Function "addr" "bp")
    ∧ (∀ g : EventEmitterIdentifier,
      (emitterFromGateway g).isMethod = g.isMethod) := by
  refine ⟨?_, ?_, ?_, ⟨rfl, ?_⟩, ?_⟩
  · intro reg t; rfl
  · intro reg e; exact ⟨rfl, rfl⟩
  · intro reg address name hid
    simp [HandlerRegistry.add_handler, HandlerRegistry.get_handler, lookupKey]
  · intro hcontra; cases hcontra
  · intro g; cases g <;> rfl

/-- The trace of a positive-fuel event retry loop starts with the
invocation of the resolved handler. -/
theorem event_retry_loop_trace_head {S T : Type} (env : EventHandlerEnv S T)
    (logger : Bool) (d : Nat) (t : Transaction) (e : Event) (idx : Nat)
    (hid : HandlerId) (k : Nat) (st : S) (reg : HandlerRegistry) (tctx : T) :
    ∃ tail, (event_retry_loop env logger d t e idx hid (k + 1) st reg tctx).trace =
      TraceEntry.invokeEventHandler hid idx :: tail := by
  simp only [event_retry_loop]
  cases hres : (env hid st t e reg tctx).result with
  | ok u => cases u; exact ⟨_, rfl⟩
  | error err =>
    cases err with
    | EventRetryError cause => exact ⟨_, rfl⟩
    | UnrecoverableError cause => exact ⟨_, rfl⟩

/-- **C7.** Whenever `handler_exists` answers true for a key, the
immediately following `get_handler` on the same (unchanged) registry returns
`Some`, so the `unwrap` in `process_events` never panics; in the typed view
of the registry a resolution is never silently `absent` once existence
succeeded, and a `STATE`/`TRANSACTION_CONTEXT` tag mismatch fails fast as a
panic rather than as `None`.  Moreover in `process_events` the handler the
dispatch step invokes first is exactly the one `get_handler` resolves from
the very registry value that passed the existence check. -/
theorem c7_resolution_after_existence :
    (∀ (reg : HandlerRegistry) (address name : String),
      reg.handler_exists address name = true →
        ∃ hid, reg.get_handler address name = some hid)
    ∧ (∀ (tr : TypedHandlerRegistry) (stateTag ctxTag : Nat) (address name : String),
      tr.handler_exists address name = true →
        tr.get_handler stateTag ctxTag address name ≠ .absent)
    ∧ (∀ (tr : TypedHandlerRegistry) (stateTag ctxTag : Nat)
        (address name : String) (s c : Nat) (hid : HandlerId),
      lookupTypedKey tr.handlers (address, name) = some (s, c, hid) →
      ¬(s = stateTag ∧ c = ctxTag) →
        tr.get_handler stateTag ctxTag address name = .typeMismatchPanic)
    ∧ (∀ (S T : Type) (env : EventHandlerEnv S T) (logger : Bool) (d k : Nat)
        (t : Transaction) (e : Event) (rest : List Event) (idx : Nat) (st : S)
        (reg : HandlerRegistry) (tctx : T),
      reg.handler_exists e.emitter.address e.name = true →
        ∃ hid, reg.get_handler e.emitter.address e.name = some hid
          ∧ (invocationMarkers (process_events_go env logger d (k + 1) t
              (e :: rest) idx st reg tctx).trace).head? = some (hid, idx)) := by
  refine ⟨?_, ?_, ?_, ?_⟩
  · intro reg address name hx
    exact ⟨(reg.get_handler address name).get hx, (Option.some_get hx).symm⟩
  · intro tr stateTag ctxTag address name hx
    simp only [TypedHandlerRegistry.handler_exists, Option.isSome_iff_exists] at hx
    obtain ⟨v, hv⟩ := hx
    simp only [TypedHandlerRegistry.get_handler, hv]
    obtain ⟨s, c, hid⟩ := v
    by_cases htag : s = stateTag ∧ c = ctxTag <;> simp [htag]
  · intro tr stateTag ctxTag address name s c hid hv htag
    simp [TypedHandlerRegistry.get_handler, hv, htag]
  · intro S T env logger d k t e rest idx st reg tctx hx
    refine ⟨(reg.get_handler e.emitter.address e.name).get hx,
      (Option.some_get hx).symm, ?_⟩
    rw [process_events_go_cons_pos env logger d (k + 1) t e rest idx st reg tctx hx]
    obtain ⟨tail, htail⟩ := event_retry_loop_trace_head env logger d t e idx
      ((reg.get_handler e.emitter.address e.name).get hx) k st reg tctx
    cases hres : (event_retry_loop env logger d t e idx
        ((reg.get_handler e.emitter.address e.name).get hx) (k + 1) st reg tctx).result with
    | none =>
        simp only [hres, htail]
        cases logger <;> simp [invocationMarkers]
    | some r =>
      cases r with
      | ok u =>
          cases u
          simp only [hres, htail]
          cases logger <;> simp [invocationMarkers, List.filterMap_append]
      | error err =>
          simp only [hres, htail]
          cases logger <;> simp [invocationMarkers]

/-- **C3.** For an event whose resolved handler returns `EventRetryError`
exactly twice and then succeeds: the engine notifies the observer with each
error and the configured delay, sleeps the delay, notifies the observer with
`is_retry = true`, and re-invokes the *same resolved handler instance* `hid`
without consulting the registry again; the handler is invoked exactly three
times with exactly two delay-length sleeps, and the event is then reported
finished.  The third conjunct states the general retry step: any
`EventRetryError` leads to notify / sleep / notify-retry and a fresh
invocation of the same `hid`, whatever the handler did to the registry. -/
theorem c3_event_retry_twice_then_success {S T : Type}
    (env : EventHandlerEnv S T) (hid : HandlerId) (t : Transaction) (e : Event)
    (rest : List Event) (idx d : Nat) (st : S) (reg : HandlerRegistry) (tctx : T)
    (c0 c1 : String)
    (h0 : evResultAt env hid t e 0 (st, reg, tctx) = .error (.EventRetryError c0))
    (h1 : evResultAt env hid t e 1 (st, reg, tctx) = .error (.EventRetryError c1))
    (h2 : evResultAt env hid t e 2 (st, reg, tctx) = .ok ())
    (hx : reg.handler_exists e.emitter.address e.name = true)
    (hget : reg.get_handler e.emitter.address e.name = some hid) :
    (∀ fuel, event_retry_loop env true d t e idx hid (fuel + 3) st reg tctx =
      ⟨some (.ok ()),
        (evIterate env hid t e 3 (st, reg, tctx)).1,
        (evIterate env hid t e 3 (st, reg, tctx)).2.1,
        (evIterate env hid t e 3 (st, reg, tctx)).2.2,
        [.invokeEventHandler hid idx,
         .eventRetryError t.intent_hash idx c0 d, .sleep d,
         .receiveEvent t.intent_hash idx true true,
         .invokeEventHandler hid idx,
         .eventRetryError t.intent_hash idx c1 d, .sleep d,
         .receiveEvent t.intent_hash idx true true,
         .invokeEventHandler hid idx]⟩)
    ∧ (∀ fuel,
      invocationMarkers
          (event_retry_loop env true d t e idx hid (fuel + 3) st reg tctx).trace =
        List.replicate 3 (hid, idx)
      ∧ countSleeps
          (event_retry_loop env true d t e idx hid (fuel + 3) st reg tctx).trace = 2)
    ∧ (∀ (st' : S) (reg' : HandlerRegistry) (tctx' : T) (c : String) (fuel : Nat),
      evResultAt env hid t e 0 (st', reg', tctx') = .error (.EventRetryError c) →
        event_retry_loop env true d t e idx hid (fuel + 1) st' reg' tctx' =
          ⟨(event_retry_loop env true d t e idx hid fuel
              (evStep env hid t e (st', reg', tctx')).1
              (evStep env hid t e (st', reg', tctx')).2.1
              (evStep env hid t e (st', reg', tctx')).2.2).result,
            (event_retry_loop env true d t e idx hid fuel
              (evStep env hid t e (st', reg', tctx')).1
              (evStep env hid t e (st', reg', tctx')).2.1
              (evStep env hid t e (st', reg', tctx')).2.2).state,
            (event_retry_loop env true d t e idx hid fuel
              (evStep env hid t e (st', reg', tctx')).1
              (evStep env hid t e (st', reg', tctx')).2.1
              (evStep env hid t e (st', reg', tctx')).2.2).registry,
            (event_retry_loop env true d t e idx hid fuel
              (evStep env hid t e (st', reg', tctx')).1
              (evStep env hid t e (st', reg', tctx')).2.1
              (evStep env hid t e (st', reg', tctx')).2.2).tctx,
            .invokeEventHandler hid idx ::
              ([.eventRetryError t.intent_hash idx c d] ++ [.sleep d] ++
                [.receiveEvent t.intent_hash idx true true] ++
                (event_retry_loop env true d t e idx hid fuel
                  (evStep env hid t e (st', reg', tctx')).1
                  (evStep env hid t e (st', reg', tctx')).2.1
                  (evStep env hid t e (st', reg', tctx')).2.2).trace)⟩)
    ∧ (∀ fuel, process_events_go env true d (fuel + 3) t (e :: rest) idx st reg tctx =
      ⟨(process_events_go env true d (fuel + 3) t rest (idx + 1)
          (evIterate env hid t e 3 (st, reg, tctx)).1
          (evIterate env hid t e 3 (st, reg, tctx)).2.1
          (evIterate env hid t e 3 (st, reg, tctx)).2.2).result,
        (process_events_go env true d (fuel + 3) t rest (idx + 1)
          (evIterate env hid t e 3 (st, reg, tctx)).1
          (evIterate env hid t e 3 (st, reg, tctx)).2.1
          (evIterate env hid t e 3 (st, reg, tctx)).2.2).state,
        (process_events_go env true d (fuel + 3) t rest (idx + 1)
          (evIterate env hid t e 3 (st, reg, tctx)).1
          (evIterate env hid t e 3 (st, reg, tctx)).2.1
          (evIterate env hid t e 3 (st, reg, tctx)).2.2).registry,
        (process_events_go env true d (fuel + 3) t rest (idx + 1)
          (evIterate env hid t e 3 (st, reg, tctx)).1
          (evIterate env hid t e 3 (st, reg, tctx)).2.1
          (evIterate env hid t e 3 (st, reg, tctx)).2.2).tctx,
        [TraceEntry.receiveEvent t.intent_hash idx true false] ++
          [TraceEntry.invokeEventHandler hid idx,
           .eventRetryError t.intent_hash idx c0 d, .sleep d,
           .receiveEvent t.intent_hash idx true true,
           .invokeEventHandler hid idx,
           .eventRetryError t.intent_hash idx c1 d, .sleep d,
           .receiveEvent t.intent_hash idx true true,
           .invokeEventHandler hid idx] ++
          [TraceEntry.finishEvent t.intent_hash idx true] ++
          (process_events_go env true d (fuel + 3) t rest (idx + 1)
            (evIterate env hid t e 3 (st, reg, tctx)).1
            (evIterate env hid t e 3 (st, reg, tctx)).2.1
            (evIterate env hid t e 3 (st, reg, tctx)).2.2).trace⟩) := by
  have e0 : (env hid st t e reg tctx).result = .error (.EventRetryError c0) := h0
  have e1 : (env hid (env hid st t e reg tctx).state t e
      (env hid st t e reg tctx).registry (env hid st t e reg tctx).tctx).result =
      .error (.EventRetryError c1) := h1
  have e2 :
      (env hid
        (env hid (env hid st t e reg tctx).state t e
          (env hid st t e reg tctx).registry (env hid st t e reg tctx).tctx).state
        t e
        (env hid (env hid st t e reg tctx).state t e
          (env hid st t e reg tctx).registry (env hid st t e reg tctx).tctx).registry
        (env hid (env hid st t e reg tctx).state t e
          (env hid st t e reg tctx).registry (env hid st t e reg tctx).tctx).tctx).result =
      .ok () := h2
  have main : ∀ fuel, event_retry_loop env true d t e idx hid (fuel + 3) st reg tctx =
      ⟨some (.ok ()),
        (evIterate env hid t e 3 (st, reg, tctx)).1,
        (evIterate env hid t e 3 (st, reg, tctx)).2.1,
        (evIterate env hid t e 3 (st, reg, tctx)).2.2,
        [.invokeEventHandler hid idx,
         .eventRetryError t.intent_hash idx c0 d, .sleep d,
         .receiveEvent t.intent_hash idx true true,
         .invokeEventHandler hid idx,
         .eventRetryError t.intent_hash idx c1 d, .sleep d,
         .receiveEvent t.intent_hash idx true true,
         .invokeEventHandler hid idx]⟩ := by
    intro fuel
    rw [show fuel + 3 = fuel + 1 + 1 + 1 from rfl]
    simp only [event_retry_loop, e0, e1, e2]
    rfl
  refine ⟨main, ?_, ?_, ?_⟩
  · intro fuel
    rw [main fuel]
    exact ⟨rfl, rfl⟩
  · intro st' reg' tctx' c fuel hr
    have e' : (env hid st' t e reg' tctx').result = .error (.EventRetryError c) := hr
    simp only [event_retry_loop, e']
    rfl
  · intro fuel
    rw [process_events_go_cons_pos env true d (fuel + 3) t e rest idx st reg tctx hx]
    have hgx : (reg.get_handler e.emitter.address e.name).get hx = hid := by
      simp [hget]
    simp only [hgx, main]
    rfl

/-- **C2.** For every dispatchable transaction the Transaction Handler is
invoked at least once; after every invocation returning
`TransactionRetryError` the engine notifies the observer with the cause and
the configured transaction retry delay, sleeps for that delay, notifies the
observer with `is_retry = true`, and invokes the handler again from the top
(a fresh invocation on the updated state); there is no bound on the attempt
count — a handler that always retries is invoked exactly as many times as
the loop is allowed to iterate, for every such allowance, and the loop ends
exactly when an invocation succeeds (`Ok(true)`) or returns
`UnrecoverableError` (surfaced with the same cause). -/
theorem c2_transaction_retry_unbounded :
    (∀ (S : Type) (h : TransactionHandlerFn S) (txFuel evFuel : Nat)
        (logger : Bool) (txD evD : Nat) (t : Transaction) (st : S)
        (reg : HandlerRegistry),
      txDispatchable reg t = true →
        1 ≤ countTransactionInvocations
          (process_transaction h (txFuel + 1) evFuel logger txD evD t st reg).trace)
    ∧ (∀ (S : Type) (h : TransactionHandlerFn S) (evFuel : Nat) (logger : Bool)
        (txD evD : Nat) (t : Transaction) (st : S) (reg : HandlerRegistry)
        (c : String) (txFuel : Nat),
      (h evFuel logger evD st t reg).result =
          some (.error (.TransactionRetryError c)) →
        tx_retry_loop h evFuel logger txD evD t (txFuel + 1) st reg =
          ⟨(tx_retry_loop h evFuel logger txD evD t txFuel
              (txStep h evFuel logger evD t (st, reg)).1
              (txStep h evFuel logger evD t (st, reg)).2).result,
            (tx_retry_loop h evFuel logger txD evD t txFuel
              (txStep h evFuel logger evD t (st, reg)).1
              (txStep h evFuel logger evD t (st, reg)).2).state,
            (tx_retry_loop h evFuel logger txD evD t txFuel
              (txStep h evFuel logger evD t (st, reg)).1
              (txStep h evFuel logger evD t (st, reg)).2).registry,
            (TraceEntry.invokeTransactionHandler t.intent_hash ::
                (h evFuel logger evD st t reg).trace) ++
              ((if logger then [TraceEntry.transactionRetryError t.intent_hash c txD]
                  else []) ++
                [TraceEntry.sleep txD] ++
                (if logger then [TraceEntry.receiveTransaction t.intent_hash true true]
                  else [])) ++
              (tx_retry_loop h evFuel logger txD evD t txFuel
                (txStep h evFuel logger evD t (st, reg)).1
                (txStep h evFuel logger evD t (st, reg)).2).trace⟩)
    ∧ (∀ (S : Type) (h : TransactionHandlerFn S) (evFuel : Nat) (logger : Bool)
        (txD evD : Nat) (t : Transaction) (st : S) (reg : HandlerRegistry),
      (∀ k, ∃ c, txResultAt h evFuel logger evD t k (st, reg) =
          some (.error (.TransactionRetryError c))) →
      (∀ (s : S) (r : HandlerRegistry),
        countTransactionInvocations (h evFuel logger evD s t r).trace = 0) →
      ∀ n, (tx_retry_loop h evFuel logger txD evD t n st reg).result = none
        ∧ countTransactionInvocations
            (tx_retry_loop h evFuel logger txD evD t n st reg).trace = n)
    ∧ (∀ (S : Type) (h : TransactionHandlerFn S) (evFuel : Nat) (logger : Bool)
        (txD evD : Nat) (t : Transaction) (k : Nat) (st : S)
        (reg : HandlerRegistry),
      (∀ j, j < k → ∃ c, txResultAt h evFuel logger evD t j (st, reg) =
          some (.error (.TransactionRetryError c))) →
      txResultAt h evFuel logger evD t k (st, reg) = some (.ok ()) →
      ∀ n, k + 1 ≤ n →
        (tx_retry_loop h evFuel logger txD evD t n st reg).result =
          some (.ok true))
    ∧ (∀ (S : Type) (h : TransactionHandlerFn S) (evFuel : Nat) (logger : Bool)
        (txD evD : Nat) (t : Transaction) (k : Nat) (st : S)
        (reg : HandlerRegistry) (cause : String),
      (∀ j, j < k → ∃ c, txResultAt h evFuel logger evD t j (st, reg) =
          some (.error (.TransactionRetryError c))) →
      txResultAt h evFuel logger evD t k (st, reg) =
          some (.error (.UnrecoverableError cause)) →
      ∀ n, k + 1 ≤ n →
        (tx_retry_loop h evFuel logger txD evD t n st reg).result =
          some (.error (.UnrecoverableError cause))) := by
  refine ⟨?_, ?_, ?_, ?_, ?_⟩
  · intro S h txFuel evFuel logger txD evD t st reg hdisp
    obtain ⟨tail, htail⟩ :=
      tx_retry_loop_trace_head h evFuel logger txD evD t txFuel st reg
    simp only [process_transaction, hdisp, if_true, htail]
    cases logger <;>
      simp [countTransactionInvocations, List.countP_cons, List.countP_append]
  · intro S h evFuel logger txD evD t st reg c txFuel hres
    simp only [tx_retry_loop, hres]
    rfl
  · intro S h evFuel logger txD evD t st reg hall hclean n
    induction n generalizing st reg with
    | zero => exact ⟨rfl, rfl⟩
    | succ n ih =>
      obtain ⟨c, hc⟩ := hall 0
      have e' : (h evFuel logger evD st t reg).result =
          some (.error (.TransactionRetryError c)) := hc
      have step := ih (txStep h evFuel logger evD t (st, reg)).1
        (txStep h evFuel logger evD t (st, reg)).2
        (fun k => hall (k + 1))
      simp only [tx_retry_loop, e']
      refine ⟨step.1, ?_⟩
      show countTransactionInvocations
        ((TraceEntry.invokeTransactionHandler t.intent_hash ::
            (h evFuel logger evD st t reg).trace) ++
          ((if logger then [TraceEntry.transactionRetryError t.intent_hash c txD] else []) ++
            [TraceEntry.sleep txD] ++
            (if logger then [TraceEntry.receiveTransaction t.intent_hash true true] else [])) ++
          (tx_retry_loop h evFuel logger txD evD t n
            (txStep h evFuel logger evD t (st, reg)).1
            (txStep h evFuel logger evD t (st, reg)).2).trace) = n + 1
      rw [countTransactionInvocations_append, countTransactionInvocations_append,
        countTransactionInvocations_cons_invoke, countTransactionInvocations_mid,
        hclean st reg, step.2]
      omega
  · intro S h evFuel logger txD evD t k
    induction k with
    | zero =>
      intro st reg hretry hok n hn
      obtain ⟨n', rfl⟩ : ∃ n', n = n' + 1 := ⟨n - 1, by omega⟩
      have e' : (h evFuel logger evD st t reg).result = some (.ok ()) := hok
      simp only [tx_retry_loop, e']
    | succ k ih =>
      intro st reg hretry hok n hn
      obtain ⟨c, hc⟩ := hretry 0 (Nat.succ_pos k)
      have e' : (h evFuel logger evD st t reg).result =
          some (.error (.TransactionRetryError c)) := hc
      obtain ⟨n', rfl⟩ : ∃ n', n = n' + 1 := ⟨n - 1, by omega⟩
      simp only [tx_retry_loop, e']
      exact ih (txStep h evFuel logger evD t (st, reg)).1
        (txStep h evFuel logger evD t (st, reg)).2
        (fun j hj => hretry (j + 1) (by omega)) hok n' (by omega)
  · intro S h evFuel logger txD evD t k
    induction k with
    | zero =>
      intro st reg cause hretry hbad n hn
      obtain ⟨n', rfl⟩ : ∃ n', n = n' + 1 := ⟨n - 1, by omega⟩
      have e' : (h evFuel logger evD st t reg).result =
          some (.error (.UnrecoverableError cause)) := hbad
      simp only [tx_retry_loop, e']
    | succ k ih =>
      intro st reg cause hretry hbad n hn
      obtain ⟨c, hc⟩ := hretry 0 (Nat.succ_pos k)
      have e' : (h evFuel logger evD st t reg).result =
          some (.error (.TransactionRetryError c)) := hc
      obtain ⟨n', rfl⟩ : ∃ n', n = n' + 1 := ⟨n - 1, by omega⟩
      simp only [tx_retry_loop, e']
      exact ih (txStep h evFuel logger evD t (st, reg)).1
        (txStep h evFuel logger evD t (st, reg)).2 cause
        (fun j hj => hretry (j + 1) (by omega)) hbad n' (by omega)

/-- **C10.** Whether a logger is configured or logging is disabled changes
nothing but the observer notifications: for every handler environment,
transaction, initial state, registry and transaction context,
`process_events` returns the same result, final state, registry and context
in both runs, and the non-observer part of the logged run's trace — the
handler invocations with their positions and the sleeps, in order — is
exactly the trace of the unlogged run; the same holds for
`process_transaction` running the default transaction handler. -/
theorem c10_logger_noninterference :
    (∀ (S T : Type) (env : EventHandlerEnv S T) (d evFuel : Nat)
        (t : Transaction) (st : S) (reg : HandlerRegistry) (tctx : T),
      (process_events env true d evFuel t st reg tctx).result =
        (process_events env false d evFuel t st reg tctx).result
      ∧ (process_events env true d evFuel t st reg tctx).state =
        (process_events env false d evFuel t st reg tctx).state
      ∧ (process_events env true d evFuel t st reg tctx).registry =
        (process_events env false d evFuel t st reg tctx).registry
      ∧ (process_events env true d evFuel t st reg tctx).tctx =
        (process_events env false d evFuel t st reg tctx).tctx
      ∧ nonObserverTrace (process_events env true d evFuel t st reg tctx).trace =
        (process_events env false d evFuel t st reg tctx).trace)
    ∧ (∀ (S : Type) (env : EventHandlerEnv S Unit) (txFuel evFuel txD evD : Nat)
        (t : Transaction) (st : S) (reg : HandlerRegistry),
      (process_transaction (default_transaction_handler env) txFuel evFuel true
          txD evD t st reg).result =
        (process_transaction (default_transaction_handler env) txFuel evFuel false
          txD evD t st reg).result
      ∧ (process_transaction (default_transaction_handler env) txFuel evFuel true
          txD evD t st reg).state =
        (process_transaction (default_transaction_handler env) txFuel evFuel false
          txD evD t st reg).state
      ∧ (process_transaction (default_transaction_handler env) txFuel evFuel true
          txD evD t st reg).registry =
        (process_transaction (default_transaction_handler env) txFuel evFuel false
          txD evD t st reg).registry
      ∧ nonObserverTrace
          (process_transaction (default_transaction_handler env) txFuel evFuel true
            txD evD t st reg).trace =
        (process_transaction (default_transaction_handler env) txFuel evFuel false
          txD evD t st reg).trace) := by
  constructor
  · intro S T env d evFuel t st reg tctx
    exact process_events_go_obs env d evFuel t t.events 0 st reg tctx
  · intro S env txFuel evFuel txD evD t st reg
    obtain ⟨g1, g2, g3, g4⟩ :=
      tx_retry_loop_default_obs env evFuel txD evD t txFuel st reg
    by_cases hd : txDispatchable reg t = true
    · simp only [process_transaction, hd, if_true]
      refine ⟨g1, g2, g3, ?_⟩
      simp only [nonObserverTrace, List.filter_cons, List.filter_append,
        TraceEntry.isObserverCall, Bool.not_true, Bool.not_false] at g4 ⊢
      simp [g4]
    · rw [Bool.not_eq_true] at hd
      simp only [process_transaction, hd]
      exact ⟨rfl, rfl, rfl, rfl⟩

/-- Witness for C3: handler 1 of `sampleEnv` retries twice then succeeds on
`sampleEventA`; the loop with a 10ms delay invokes it exactly 3 times with
exactly 2 sleeps. -/
theorem c3_event_retry_twice_then_success_witness :
    evResultAt sampleEnv 1 sampleTxA sampleEventA 0 (0, sampleRegA, ()) =
      .error (.EventRetryError "transient")
    ∧ evResultAt sampleEnv 1 sampleTxA sampleEventA 1 (0, sampleRegA, ()) =
      .error (.EventRetryError "transient")
    ∧ evResultAt sampleEnv 1 sampleTxA sampleEventA 2 (0, sampleRegA, ()) = .ok ()
    ∧ sampleRegA.handler_exists sampleEventA.emitter.address sampleEventA.name = true
    ∧ sampleRegA.get_handler sampleEventA.emitter.address sampleEventA.name = some 1
    ∧ invocationMarkers
        (event_retry_loop sampleEnv true 10 sampleTxA sampleEventA 0 1 3 0
          sampleRegA ()).trace = List.replicate 3 (1, 0)
    ∧ countSleeps
        (event_retry_loop sampleEnv true 10 sampleTxA sampleEventA 0 1 3 0
          sampleRegA ()).trace = 2 := by
  refine ⟨rfl, rfl, rfl, rfl, rfl, ?_, ?_⟩
  · exact ((c3_event_retry_twice_then_success sampleEnv 1 sampleTxA sampleEventA
      [] 0 10 0 sampleRegA () "transient" "transient" rfl rfl rfl rfl rfl).2.1 0).1
  · exact ((c3_event_retry_twice_then_success sampleEnv 1 sampleTxA sampleEventA
      [] 0 10 0 sampleRegA () "transient" "transient" rfl rfl rfl rfl rfl).2.1 0).2

end RadixEventStream
